import Mathlib

/-! # Caporal `Validator` (lib/validator.js)

A shallow embedding of `lib/validator.js` and of the ECMAScript built-ins it calls
(`parseFloat`, `parseInt`, `ToString`, `String.prototype.split`, `Array.prototype.map`,
`RegExp.prototype.test`, the bitwise `&`), followed by theorems about the embedding.

Modelling conventions.

* A JavaScript string is a `List Char`.
* A JavaScript Number is `Number`: NaN, an infinity, or a signed decimal `m / 10 ^ e`.
  The binary rounding of IEEE doubles is not modelled: the model agrees with the
  engine on every number that a double holds exactly and prints back with the same digits,
  in particular on every integer of magnitude below `2 ^ 53`.
* Mutable objects are passed as explicit state: the `lastIndex` of a regular expression
  lives in the `RegExp` record and `validate` returns the validator after the call; the
  program context is a record with the list of `fatalError` calls made so far.
* A caller-supplied function is given by what one call of it does: what it returns or
  throws, the `fatalError` calls it makes, and the fields of the Validator instance it
  assigns, since the source calls it as a method of the instance.
* `throw` is `Except.error`.
-/

namespace Caporal

/-! ## Values -/

/-- A JavaScript string, as its sequence of characters. -/
abbrev JSString := List Char

/-- A JavaScript Number: `nan`, `inf neg` (`neg` for the negative one), or the finite
value `(-1)^neg * m / 10^e`. `fin true 0 0` is the negative zero. Numbers built by the
functions below are normal: `e = 0` or `m % 10 ≠ 0`. -/
inductive Number where
  | nan
  | inf (neg : Bool)
  | fin (neg : Bool) (m : Nat) (e : Nat)
  deriving DecidableEq

/-- The JavaScript values that reach the validator: `undefined`, `null`, booleans, numbers,
strings and arrays of such values. -/
inductive Value where
  | undefined
  | null
  | boolean (b : Bool)
  | number (n : Number)
  | string (s : JSString)
  | array (xs : List Value)

/-- Strip trailing zeros of the decimal `m / 10^e` while fractional digits remain. -/
def Number.normalize (neg : Bool) (m : Nat) : Nat → Number
  | 0 => .fin neg m 0
  | e + 1 => if m % 10 = 0 then Number.normalize neg (m / 10) e else .fin neg m (e + 1)

/-- The global `isNaN` on a Number. -/
def Number.isNaN : Number → Bool
  | .nan => true
  | _ => false

/-! ## Number to string (Number::toString, radix 10) -/

/-- Decimal digits of `n`, most significant first, with `fuel` bounding the digit count. -/
def digitsFuel : Nat → Nat → List Char → List Char
  | 0, _, acc => acc
  | fuel + 1, n, acc =>
    if n / 10 = 0 then Nat.digitChar (n % 10) :: acc
    else digitsFuel fuel (n / 10) (Nat.digitChar (n % 10) :: acc)

/-- Decimal digits of a natural number (`0` gives `"0"`). -/
def natDigits (n : Nat) : List Char := digitsFuel (n + 1) n []

/-- Remove the zeros at the end of a digit string. -/
def stripTrailingZeros (ds : List Char) : List Char :=
  (ds.reverse.dropWhile (fun c => c == '0')).reverse

/-- Number::toString for a finite nonzero magnitude `m / 10^e`: with `s` the significant
digits, `k` their count and `n` the position of the decimal point, the four layouts of
the standard (integer, fraction, small fraction, exponent form). -/
def formatFinite (m e : Nat) : List Char :=
  let all := natDigits m
  let s := stripTrailingZeros all
  let k : Int := s.length
  let n : Int := (all.length : Int) - (e : Int)
  if k ≤ n ∧ n ≤ 21 then s ++ List.replicate (n - k).toNat '0'
  else if 0 < n ∧ n ≤ 21 then s.take n.toNat ++ '.' :: s.drop n.toNat
  else if -6 < n ∧ n ≤ 0 then '0' :: '.' :: (List.replicate (-n).toNat '0' ++ s)
  else
    let ex : Int := n - 1
    let exs := (if ex < 0 then '-' else '+') :: natDigits ex.natAbs
    match s with
    | [] => []
    | [d] => d :: 'e' :: exs
    | d :: r => d :: '.' :: (r ++ 'e' :: exs)

/-- Number::toString, on the decimal that the model holds. The engine prints the shortest
digits that identify the double; for an integer below `2 ^ 53` these are its own
digits, as here. -/
def Number.toStr : Number → JSString
  | .nan => "NaN".toList
  | .inf neg => if neg then "-Infinity".toList else "Infinity".toList
  | .fin neg m e =>
    if m = 0 then ['0']
    else if neg then '-' :: formatFinite m e else formatFinite m e

/-! ## ToString -/

mutual
/-- The abstract operation ToString on a value; an array is joined with commas
(Array.prototype.toString). -/
def ToString : Value → JSString
  | .undefined => "undefined".toList
  | .null => "null".toList
  | .boolean b => if b then "true".toList else "false".toList
  | .number n => n.toStr
  | .string s => s
  | .array xs => joinElements xs
/-- Array.prototype.join with the separator `,`. -/
def joinElements : List Value → JSString
  | [] => []
  | [x] => elementString x
  | x :: y :: r => elementString x ++ ',' :: joinElements (y :: r)
/-- The string of one element inside `join`: `undefined` and `null` give the empty string. -/
def elementString : Value → JSString
  | .undefined => []
  | .null => []
  | .boolean b => if b then "true".toList else "false".toList
  | .number n => n.toStr
  | .string s => s
  | .array xs => joinElements xs
end

/-! ## parseFloat and parseInt -/

/-- StrWhiteSpaceChar: the white space and line terminator code points. -/
def isStrWhiteSpaceChar (c : Char) : Bool :=
  [0x09, 0x0A, 0x0B, 0x0C, 0x0D, 0x20, 0xA0, 0x1680, 0x2000, 0x2001, 0x2002, 0x2003,
    0x2004, 0x2005, 0x2006, 0x2007, 0x2008, 0x2009, 0x200A, 0x2028, 0x2029, 0x202F,
    0x205F, 0x3000, 0xFEFF].contains c.toNat

/-- TrimString(start): drop leading white space. -/
def trimStart (s : JSString) : JSString := s.dropWhile isStrWhiteSpaceChar

/-- DecimalDigit: `0` to `9`. -/
def isDecimalDigit (c : Char) : Bool := decide (48 ≤ c.toNat) && decide (c.toNat ≤ 57)

/-- The value of a digit in radix `r`, if the character is one. -/
def radixDigitValue (r : Nat) (c : Char) : Option Nat :=
  let n := c.toNat
  let v : Option Nat :=
    if 48 ≤ n ∧ n ≤ 57 then some (n - 48)
    else if 97 ≤ n ∧ n ≤ 122 then some (n - 87)
    else if 65 ≤ n ∧ n ≤ 90 then some (n - 55)
    else none
  match v with
  | some d => if d < r then some d else none
  | none => none

/-- The value of a string of radix-`r` digits, most significant first. -/
def digitsToNat (r : Nat) (ds : List Char) : Nat :=
  ds.foldl (fun acc c => r * acc + (radixDigitValue r c).getD 0) 0

/-- Split off an optional leading sign: the flag is `true` for `-`. -/
def splitSign : JSString → Bool × JSString
  | '-' :: r => (true, r)
  | '+' :: r => (false, r)
  | s => (false, s)

/-- The ExponentPart at the head of `s`, if it is complete (`e` or `E`, an optional
sign, one or more digits): its value. An incomplete exponent is not part of the number. -/
def exponentPart : JSString → Int
  | [] => 0
  | c :: r =>
    if c = 'e' ∨ c = 'E' then
      let (neg, r1) := splitSign r
      let ds := r1.takeWhile isDecimalDigit
      if ds = [] then 0
      else if neg then - (digitsToNat 10 ds : Int) else (digitsToNat 10 ds : Int)
    else 0

/-- The Number of the mantissa digits `m` scaled by `10 ^ (-scale)`. -/
def Number.ofDecimal (neg : Bool) (m : Nat) (scale : Int) : Number :=
  if m = 0 then .fin neg 0 0
  else if scale ≤ 0 then .fin neg (m * 10 ^ scale.natAbs) 0
  else Number.normalize neg m scale.toNat

/-- The fraction after the integer digits: for a rest that starts with `.`, the digits
that follow and what remains after them; otherwise no digits and the rest itself. -/
def fractionSplit : JSString → JSString × JSString
  | '.' :: r => (r.takeWhile isDecimalDigit, r.dropWhile isDecimalDigit)
  | r => ([], r)

/-- The global `parseFloat`: ToString, TrimString(start), then the longest prefix that is
a StrDecimalLiteral (sign, then `Infinity` or digits with an optional fraction and an
optional exponent); NaN when there is no such prefix. -/
def parseFloat (v : Value) : Number :=
  let (neg, s) := splitSign (trimStart (ToString v))
  if "Infinity".toList.isPrefixOf s then .inf neg
  else
    let ip := s.takeWhile isDecimalDigit
    let (fp, r2) := fractionSplit (s.dropWhile isDecimalDigit)
    if ip = [] ∧ fp = [] then .nan
    else Number.ofDecimal neg (digitsToNat 10 (ip ++ fp)) ((fp.length : Int) - exponentPart r2)

/-- The radix of `parseInt` without a radix argument: 16 after the marker `0x` or `0X`,
which is removed, and 10 otherwise. -/
def radixMarker : JSString → Nat × JSString
  | '0' :: 'x' :: r => (16, r)
  | '0' :: 'X' :: r => (16, r)
  | s => (10, s)

/-- The global `parseInt` with no radix argument: ToString, TrimString(start), sign, the
`0x`/`0X` marker selecting radix 16, then the longest run of digits of the radix; NaN
when the run is empty. The result is the integer that the digits denote; the engine
rounds it to the nearest double, which is the same number below `2 ^ 53` (and for
every integer that a double holds), so statements about the value carry that bound. -/
def parseInt (v : Value) : Number :=
  let (neg, s) := splitSign (trimStart (ToString v))
  let (radix, s1) := radixMarker s
  let ds := s1.takeWhile (fun c => (radixDigitValue radix c).isSome)
  if ds = [] then .nan else .fin neg (digitsToNat radix ds) 0

/-- ToInt32 of a Number, as the 32-bit pattern (a natural number below `2^32`): NaN and
the infinities give 0, a finite number is truncated and reduced modulo `2^32`. -/
def toUint32 : Number → Nat
  | .nan => 0
  | .inf _ => 0
  | .fin neg m e =>
    let t := (m / 10 ^ e) % 2 ^ 32
    if neg then (2 ^ 32 - t) % 2 ^ 32 else t

/-- The expression `constant & validator` on a flag constant and a numeric validator, as a
32-bit pattern; it is zero exactly when the JavaScript result is `0`. -/
def bitAnd (constant : Nat) (validator : Number) : Nat :=
  (constant % 2 ^ 32) &&& toUint32 validator

/-- The call `String.prototype.split(',')`. -/
def splitComma : JSString → List JSString
  | [] => [[]]
  | c :: cs =>
    if c = ',' then [] :: splitComma cs
    else match splitComma cs with
      | [] => [[c]]
      | h :: t => (c :: h) :: t

/-! ## Regular expressions -/

/-- A regular expression object: the compiled pattern as a matcher (`matcher s i` is the
end index of a match of the pattern in `s` that starts exactly at index `i`, if there is
one), the `global` and `sticky` flags, and the mutable `lastIndex`. -/
structure RegExp where
  matcher : JSString → Nat → Option Nat
  global : Bool
  sticky : Bool
  lastIndex : Nat

/-- The search loop of RegExpBuiltinExec from index `i`: try the matcher at `i`; on failure
a sticky expression gives up, any other moves one index forward, until past the end. -/
def RegExp.execFrom (r : RegExp) (s : JSString) : Nat → Nat → Option Nat
  | 0, _ => none
  | fuel + 1, i =>
    if s.length < i then none
    else match r.matcher s i with
      | some e => some e
      | none => if r.sticky then none else RegExp.execFrom r s fuel (i + 1)

/-- The index where RegExpBuiltinExec starts: `lastIndex` for a global or sticky
expression, 0 otherwise. -/
def RegExp.startIndex (r : RegExp) : Nat :=
  if r.global || r.sticky then r.lastIndex else 0

/-- The method `RegExp.prototype.test` on a string: whether a match was found, and the expression
afterwards. A global or sticky expression has its `lastIndex` set to the end of the
match, or to 0 when there is none. -/
def RegExp.test (r : RegExp) (s : JSString) : Bool × RegExp :=
  match RegExp.execFrom r s (s.length + 1 - r.startIndex) r.startIndex with
  | some e => (true, if r.global || r.sticky then { r with lastIndex := e } else r)
  | none => (false, if r.global || r.sticky then { r with lastIndex := 0 } else r)

/-- Canonicalize of a case-insensitive, non-unicode pattern on one character: an ASCII
letter goes to its upper case. The standard never maps a character outside ASCII into
ASCII, so such a character is left as it is here, which is exact whenever it is compared
with the characters of an ASCII-only pattern. -/
def canonicalize (c : Char) : Char :=
  if c.toNat < 128 then c.toUpper else c

/-- Match the literal `lit` case-insensitively at the head of `s`: the rest of `s`. -/
def matchLiteral : JSString → JSString → Option JSString
  | [], s => some s
  | _ :: _, [] => none
  | p :: ps, c :: cs => if canonicalize p = canonicalize c then matchLiteral ps cs else none

/-- The alternatives of the pattern in `/^(true|false|yes|no|0|1)$/i`, in order. -/
def boolAlternatives : List JSString :=
  ["true".toList, "false".toList, "yes".toList, "no".toList, "0".toList, "1".toList]

/-- The regular expression literal `/^(true|false|yes|no|0|1)$/i` of the BOOL branch:
`^` holds at index 0 only, the alternatives are tried in order, `$` holds at the end only. -/
def boolRegExp : RegExp where
  matcher := fun s i =>
    if i = 0 ∧ boolAlternatives.any (fun alt => matchLiteral alt s == some []) then
      some s.length
    else none
  global := false
  sticky := false
  lastIndex := 0

/-! ## Validator specifications, errors and the program context -/

/-- What a caller-supplied function can throw: any value, or an Error object with its
message. -/
inductive Thrown where
  | value (v : Value)
  | error (message : JSString)

mutual
/-- The first argument of the constructor: a function, a regular expression, or any other
value (a number is a flag bitmask). A function is given by what one call of it does. -/
inductive Spec where
  | function (f : Value → FnResult)
  | regExp (r : RegExp)
  | value (v : Value)
/-- The observable behaviour of one call of a caller-supplied function. The source calls
it as `this._validator(value)`, a method call, so the function runs with the Validator
instance as its `this`: it returns a value or throws (`outcome`), it may itself have
called `program.fatalError` with some arguments (`fatalCalls`), and it may have assigned
the fields of the instance, `this._validator` (`setValidator`) and `this._program`
(`setProgram`, another program reference); `none` is for a field left alone. -/
inductive FnResult where
  | mk (outcome : Except Thrown Value) (fatalCalls : List Value)
      (setValidator : Option Spec) (setProgram : Option Nat)
end

/-- A caller-supplied validator function. -/
abbrev JSFun := Value → FnResult

/-- What the call returned or threw. -/
def FnResult.outcome : FnResult → Except Thrown Value
  | .mk o _ _ _ => o

/-- The arguments of the calls of `program.fatalError` that the function made itself. -/
def FnResult.fatalCalls : FnResult → List Value
  | .mk _ calls _ _ => calls

/-- The value that the function assigned to `this._validator`, if it assigned one. -/
def FnResult.setValidator : FnResult → Option Spec
  | .mk _ _ sv _ => sv

/-- The reference that the function assigned to `this._program`, if it assigned one. -/
def FnResult.setProgram : FnResult → Option Nat
  | .mk _ _ _ sp => sp

/-- The context object given to a ValidationError: the properties `validator`, `value`
and `originalError`, each present or not. -/
structure ErrorMeta where
  validator : Option Spec
  value : Option Value
  originalError : Option Thrown

/-- Modelled from the spec: the class `ValidationError` of `./error/validation-error`,
which is not part of the sources at hand; a structured error carrying a message, a
context object, and a reference to the program context. -/
structure ValidationError where
  message : String
  meta : ErrorMeta
  program : Nat

/-- What a call can throw: a ValidationError, a TypeError of the engine, or a value thrown
by caller code that was not caught. -/
inductive JSError where
  | validation (err : ValidationError)
  | typeError (message : String)
  | thrown (t : Thrown)

/-- One call of `program.fatalError`: by the validator with a ValidationError, or by a
caller-supplied function with its own argument. -/
inductive FatalCall where
  | byValidator (err : ValidationError)
  | byFunction (arg : Value)

/-- Modelled from the spec: the program context, which is not part of the sources at
hand; an object with an identity (`ref`) whose `fatalError` is a sink. The record keeps
the calls made to it, oldest first. -/
structure Program where
  ref : Nat
  fatalCalls : List FatalCall

/-- Modelled from the spec: `program.fatalError(err)`, which records the error and
returns. -/
def Program.fatalError (p : Program) (err : ValidationError) : Program :=
  { p with fatalCalls := p.fatalCalls ++ [FatalCall.byValidator err] }

/-- Modelled from the spec: the module `./constants`, which is not part of the sources at
hand; it exports the flag constants INT, FLOAT, BOOL and ARRAY and possibly others,
all of them enumerated by `Object.keys(constants)`. -/
structure Constants where
  INT : Nat
  FLOAT : Nat
  BOOL : Nat
  ARRAY : Nat
  others : List Nat

/-- The values `Object.keys(constants)` ranges over. -/
def Constants.all (c : Constants) : List Nat :=
  c.INT :: c.FLOAT :: c.BOOL :: c.ARRAY :: c.others

/-! ## The class `Validator` -/

/-- An instance of `Validator`: the fields `_validator` and `_program` (the program
context is held by reference). -/
structure Validator where
  _validator : Spec
  _program : Nat

/-- The state after a call of `validate`: what the call returned or threw, the validator
afterwards, and the program context afterwards. -/
structure ValidateResult where
  outcome : Except JSError Value
  validator : Validator
  program : Program

/-- The method `Array.prototype.map` with a callback that can throw: the elements are visited in
order and the first throw ends the call. -/
def mapThrowing (f : Value → Except JSError Value) : List Value → Except JSError (List Value)
  | [] => .ok []
  | x :: xs =>
    match f x with
    | .error e => .error e
    | .ok y =>
      match mapThrowing f xs with
      | .error e => .error e
      | .ok ys => .ok (y :: ys)

/-- The comparison `value === '...'` with a string literal: true for that very string only. -/
def strictEqualsString (value : Value) (lit : JSString) : Bool :=
  match value with
  | .string s => s == lit
  | _ => false

/-- The static method `Validator.isNumber(obj)`: `!isNaN(parseFloat(obj))`. -/
def Validator.isNumber (obj : Value) : Bool := !(parseFloat obj).isNaN

/-- The method `_checkOtherValidator()`: a validator that is neither a function nor a regular
expression is reported to `program.fatalError`. -/
def Validator._checkOtherValidator (this : Validator) (program : Program) : Program :=
  match this._validator with
  | .function _ => program
  | .regExp _ => program
  | .value _ =>
    program.fatalError
      { message := "Caporal setup error - Invalid validator setup."
        meta := { validator := some this._validator, value := none, originalError := none }
        program := this._program }

/-- The method `_checkFlagValidator()` on the numeric validator `n`: when every constant has no bit
in common with it, the validator is reported to `program.fatalError`. -/
def Validator._checkFlagValidator (c : Constants) (this : Validator) (n : Number)
    (program : Program) : Program :=
  let isValidatorInvalid := c.all.all (fun v => bitAnd v n == 0)
  if isValidatorInvalid then
    program.fatalError
      { message := "Caporal setup error - Invalid flag validator setup."
        meta := { validator := some this._validator, value := none, originalError := none }
        program := this._program }
  else program

/-- The constructor: store the two arguments, then check the validator according to
`typeof this._validator === 'number'`. It gives the new instance and the program
context afterwards. -/
def Validator.constructor (c : Constants) (validator : Spec) (program : Program) :
    Validator × Program :=
  let this : Validator := { _validator := validator, _program := program.ref }
  match validator with
  | .value (.number n) => (this, Validator._checkFlagValidator c this n program)
  | _ => (this, Validator._checkOtherValidator this program)

/-- The part of `_validateWithFlags` below the ARRAY branch (source lines 81 to 101), for
the numeric validator `n`: the INT, FLOAT and BOOL branches in this order, and
`undefined` when none of the three flags is set. -/
def Validator.validateLeaf (c : Constants) (this : Validator) (n : Number) (value : Value) :
    Except JSError Value :=
  if bitAnd c.INT n ≠ 0 then
    if !Validator.isNumber value then
      .error (.validation
        { message := "Type (INT) validation failed"
          meta := { validator := none, value := some value, originalError := none }
          program := this._program })
    else .ok (.number (parseInt value))
  else if bitAnd c.FLOAT n ≠ 0 then
    if !Validator.isNumber value then
      .error (.validation
        { message := "Type (FLOAT) validation failed"
          meta := { validator := none, value := some value, originalError := none }
          program := this._program })
    else .ok (.number (parseFloat value))
  else if bitAnd c.BOOL n ≠ 0 then
    match value with
    | .boolean b => .ok (.boolean b)
    | _ =>
      if (boolRegExp.test (ToString value)).1 == false then
        .error (.validation
          { message := "Type (BOOL) validation failed"
            meta := { validator := none, value := some value, originalError := none }
            program := this._program })
      else
        .ok (.boolean (!(strictEqualsString value "0".toList
          || strictEqualsString value "no".toList
          || strictEqualsString value "false".toList)))
  else .ok .undefined

/-- The method `_validateWithFlags(value, unary)` for the numeric validator `n`. With the ARRAY flag
and `unary` not set, a string is split on commas and each element of the sequence is
validated by `_validateWithFlags(el, true)`, which is `validateLeaf`; calling `map` on
a value that is not an array is the TypeError of the engine. -/
def Validator._validateWithFlags (c : Constants) (this : Validator) (n : Number) (value : Value)
    (unary : Bool) : Except JSError Value :=
  if !unary && bitAnd c.ARRAY n ≠ 0 then
    let value := match value with
      | .string s => Value.array ((splitComma s).map Value.string)
      | v => v
    match value with
    | .array xs =>
      match mapThrowing (Validator.validateLeaf c this n) xs with
      | .error e => .error e
      | .ok ys => .ok (.array ys)
    | _ => .error (.typeError "value.map is not a function")
  else Validator.validateLeaf c this n value

/-- The instance after a call of the function `f` on `value` as a method of it: the fields
that the function assigned hold the new values. -/
def Validator.afterFunction (this : Validator) (f : JSFun) (value : Value) : Validator :=
  { _validator := (f value).setValidator.getD this._validator
    _program := (f value).setProgram.getD this._program }

/-- The method `_validateWithFunction(value)` for the function `f`: its result, or a
ValidationError wrapping what it threw. The `catch` block reads `this._validator` and
`this._program` when the function has run, so the error holds the fields of the
instance as the function left them. -/
def Validator._validateWithFunction (this : Validator) (f : JSFun) (value : Value) :
    Except JSError Value :=
  match (f value).outcome with
  | .ok r => .ok r
  | .error e =>
    .error (.validation
      { message := "Function validation failed"
        meta := { validator := some (this.afterFunction f value)._validator,
                  value := some value,
                  originalError := some e }
        program := (this.afterFunction f value)._program })

/-- The method `_validateWithRegExp(value)` for the regular expression `r`: the value itself when
`test` succeeds, a ValidationError otherwise; and the regular expression afterwards. The
error holds the validator by reference, that is, as it is after the test. -/
def Validator._validateWithRegExp (this : Validator) (r : RegExp) (value : Value) :
    Except JSError Value × RegExp :=
  let t := r.test (ToString value)
  if !t.1 then
    (.error (.validation
      { message := "RegExp validation failed"
        meta := { validator := some (Spec.regExp t.2), value := some value,
                  originalError := none }
        program := this._program }), t.2)
  else (.ok value, t.2)

/-- The method `validate(value)`: dispatch on the kind of `this._validator`; a validator of no known
kind falls through and `undefined` is returned. -/
def Validator.validate (c : Constants) (this : Validator) (value : Value) (program : Program) :
    ValidateResult :=
  match this._validator with
  | .function f =>
    { outcome := Validator._validateWithFunction this f value
      validator := this.afterFunction f value
      program := { program with
        fatalCalls := program.fatalCalls ++ (f value).fatalCalls.map FatalCall.byFunction } }
  | .regExp r =>
    let res := Validator._validateWithRegExp this r value
    { outcome := res.1
      validator := { this with _validator := Spec.regExp res.2 }
      program := program }
  | .value (.number n) =>
    { outcome := Validator._validateWithFlags c this n value false
      validator := this
      program := program }
  | .value _ =>
    { outcome := .ok .undefined
      validator := this
      program := program }

/-! ## Vocabulary of the statements -/

/-- The usual flag constants: INT = 1, FLOAT = 2, BOOL = 4, ARRAY = 8. -/
def stdConstants : Constants :=
  { INT := 1, FLOAT := 2, BOOL := 4, ARRAY := 8, others := [] }

/-- A program context on which `fatalError` was never called. -/
def freshProgram : Program := { ref := 0, fatalCalls := [] }

/-- A numeric validator given as a natural number. -/
def flagSpec (n : Nat) : Spec := Spec.value (Value.number (Number.fin false n 0))

/-- A validator instance for the numeric validator `n`. -/
def flagValidator (n : Number) (program : Nat) : Validator :=
  { _validator := Spec.value (Value.number n), _program := program }

/-- The flag `constant` is set in the numeric validator `n`: `n & constant` is truthy. -/
def hasFlag (constant : Nat) (n : Number) : Prop := bitAnd constant n ≠ 0

instance (constant : Nat) (n : Number) : Decidable (hasFlag constant n) :=
  inferInstanceAs (Decidable (bitAnd constant n ≠ 0))

/-- Every character of `ds` is a decimal digit. -/
def allDigits (ds : JSString) : Prop := ∀ c ∈ ds, isDecimalDigit c = true

/-- The number that a string of decimal digits denotes, by positional notation. -/
def decimalValue (ds : JSString) : Nat :=
  Nat.ofDigits 10 (ds.reverse.map (fun c => c.toNat - 48))

/-- A lower-case ASCII letter or a decimal digit. -/
def isLowerOrDigit (p : Char) : Prop :=
  (97 ≤ p.toNat ∧ p.toNat ≤ 122) ∨ (48 ≤ p.toNat ∧ p.toNat ≤ 57)

/-- The string equals, ignoring letter case, one of the six tokens `true`, `false`, `yes`,
`no`, `0`, `1`. -/
def isBoolToken (s : JSString) : Prop :=
  s.map Char.toLower = "true".toList ∨ s.map Char.toLower = "false".toList
  ∨ s.map Char.toLower = "yes".toList ∨ s.map Char.toLower = "no".toList
  ∨ s.map Char.toLower = "0".toList ∨ s.map Char.toLower = "1".toList

/-- The pattern of `r` matches somewhere in `s`. -/
def patternMatches (r : RegExp) (s : JSString) : Prop :=
  ∃ j, j ≤ s.length ∧ (r.matcher s j).isSome = true

/-- The regular expression `/a/g`, as written (its `lastIndex` is 0). -/
def globalA : RegExp where
  matcher := fun s i =>
    match s.drop i with
    | 'a' :: _ => some (i + 1)
    | _ => none
  global := true
  sticky := false
  lastIndex := 0

/-- The regular expression `/^[a-z]+$/`: at index 0 it matches a nonempty string of
lower-case letters up to its end. -/
def lowerWord : RegExp where
  matcher := fun s i =>
    if i = 0 ∧ s ≠ [] ∧ s.all (fun ch => decide (97 ≤ ch.toNat ∧ ch.toNat ≤ 122)) then
      some s.length
    else none
  global := false
  sticky := false
  lastIndex := 0

/-- The sequence that the ARRAY branch maps over: the comma-separated parts of a string,
or the elements of an array; nothing for any other value. -/
def elementsOf : Value → Option (List Value)
  | .string s => some ((splitComma s).map Value.string)
  | .array xs => some xs
  | _ => none

/-- The text `part` occurs in the message `msg`. -/
def containsText (msg part : String) : Prop :=
  ∃ pre post : List Char, msg.toList = pre ++ part.toList ++ post

/-- The bitwise OR of a list of flag constants. -/
def combineFlags (ks : List Nat) : Nat := ks.foldr (fun k acc => k ||| acc) 0

/-- The test `typeof spec === 'number'`. -/
def Spec.isNumber : Spec → Bool
  | .value (.number _) => true
  | _ => false

/-- The test `typeof spec === 'function'`. -/
def Spec.isFunction : Spec → Bool
  | .function _ => true
  | _ => false

/-- The test `spec instanceof RegExp`. -/
def Spec.isRegExp : Spec → Bool
  | .regExp _ => true
  | _ => false

/-- The ValidationError of a numeric validator that shares no bit with any constant. -/
def flagSetupError (spec : Spec) (program : Nat) : ValidationError :=
  { message := "Caporal setup error - Invalid flag validator setup."
    meta := { validator := some spec, value := none, originalError := none }
    program := program }

/-- The ValidationError of a validator that is no function, regular expression or number. -/
def otherSetupError (spec : Spec) (program : Nat) : ValidationError :=
  { message := "Caporal setup error - Invalid validator setup."
    meta := { validator := some spec, value := none, originalError := none }
    program := program }

/-- The call threw a ValidationError with the message `msg`. -/
def raisesValidation (o : Except JSError Value) (msg : String) : Prop :=
  ∃ e : ValidationError, o = .error (.validation e) ∧ e.message = msg

/-- The call returned (it did not throw). -/
def returns (o : Except JSError Value) : Prop := ∃ r : Value, o = .ok r

/-- The outcome of `validate(value)` on a validator built for the numeric validator `n`. -/
def validateFlags (c : Constants) (n : Number) (program : Program) (value : Value) :
    Except JSError Value :=
  (Validator.validate c (flagValidator n program.ref) value program).outcome

/-- The four flag constants work as bit flags: as 32-bit patterns each is nonzero and no
two of them share a bit. -/
def Constants.bitDisjoint (c : Constants) : Prop :=
  c.INT % 2 ^ 32 ≠ 0 ∧ c.FLOAT % 2 ^ 32 ≠ 0 ∧ c.BOOL % 2 ^ 32 ≠ 0 ∧ c.ARRAY % 2 ^ 32 ≠ 0
  ∧ (c.INT % 2 ^ 32) &&& (c.FLOAT % 2 ^ 32) = 0
  ∧ (c.INT % 2 ^ 32) &&& (c.BOOL % 2 ^ 32) = 0
  ∧ (c.INT % 2 ^ 32) &&& (c.ARRAY % 2 ^ 32) = 0
  ∧ (c.FLOAT % 2 ^ 32) &&& (c.BOOL % 2 ^ 32) = 0
  ∧ (c.FLOAT % 2 ^ 32) &&& (c.ARRAY % 2 ^ 32) = 0
  ∧ (c.BOOL % 2 ^ 32) &&& (c.ARRAY % 2 ^ 32) = 0

/-- The numeric validator made of the single flag constant `k`. -/
def flagAlone (k : Nat) : Number := Number.fin false k 0

/-- The comparison `a === b` on Numbers: NaN equals nothing, the two zeros are equal, and
finite numbers are compared by value. -/
def Number.strictEquals : Number → Number → Bool
  | .inf a, .inf b => a == b
  | .fin a m e, .fin b m2 e2 =>
    decide (m * 10 ^ e2 = m2 * 10 ^ e) && (a == b || decide (m = 0))
  | _, _ => false

/-- Two stored validators are the same object: the same function, the same value, or the
same regular expression (its pattern and flags; `lastIndex` is state of the object that
`test` may update, not part of its identity). -/
def Spec.sameObject : Spec → Spec → Prop
  | .function f, .function g => f = g
  | .regExp r, .regExp q => r.matcher = q.matcher ∧ r.global = q.global ∧ r.sticky = q.sticky
  | .value v, .value w => v = w
  | _, _ => False

/-- The kind of a validator: 0 for a function, 1 for a regular expression, 2 for a number
(a flag bitmask), 3 for anything else. -/
def Spec.kind : Spec → Nat
  | .function _ => 0
  | .regExp _ => 1
  | .value (.number _) => 2
  | .value _ => 3

/-- The regular expression `/a/y`, as written (its `lastIndex` is 0). -/
def stickyA : RegExp where
  matcher := fun s i =>
    match s.drop i with
    | 'a' :: _ => some (i + 1)
    | _ => none
  global := false
  sticky := true
  lastIndex := 0

/-- The validator and the program context after `validate` was called on each value of a
list in turn. -/
def Validator.afterCalls (c : Constants) : Validator → Program → List Value → Validator × Program
  | this, program, [] => (this, program)
  | this, program, w :: ws =>
    Validator.afterCalls c (Validator.validate c this w program).validator
      (Validator.validate c this w program).program ws

/-- A function that throws the Error "boom" and leaves the instance alone. -/
def throwingFn : JSFun := fun _ => ⟨.error (.error "boom".toList), [], none, none⟩

/-- The identity function, which leaves the instance alone. -/
def identityFn : JSFun := fun x => ⟨.ok x, [], none, none⟩

/-- A function that assigns `/a/g` to `this._validator` and the program reference 7 to
`this._program`, then throws the Error "boom". -/
def reassignThenThrow : JSFun :=
  fun _ => ⟨.error (.error "boom".toList), [], some (.regExp globalA), some 7⟩

/-- A function that assigns `/a/g` to `this._validator` and returns its argument. -/
def reassignThenReturn : JSFun :=
  fun x => ⟨.ok x, [], some (.regExp globalA), none⟩

/-! ## Unfolding lemmas -/

theorem validateFlags_eq (c : Constants) (n : Number) (program : Program) (value : Value) :
    validateFlags c n program value
      = Validator._validateWithFlags c (flagValidator n program.ref) n value false := rfl

theorem validateWithFlags_leaf (c : Constants) (this : Validator) (n : Number) (value : Value)
    (h : ¬ hasFlag c.ARRAY n) :
    Validator._validateWithFlags c this n value false = Validator.validateLeaf c this n value := by
  unfold hasFlag at h
  simp [Validator._validateWithFlags, h]

theorem validateWithFlags_unary (c : Constants) (this : Validator) (n : Number) (value : Value) :
    Validator._validateWithFlags c this n value true = Validator.validateLeaf c this n value := by
  simp [Validator._validateWithFlags]

theorem validateLeaf_int (c : Constants) (this : Validator) (n : Number) (value : Value)
    (h : hasFlag c.INT n) :
    Validator.validateLeaf c this n value =
      if Validator.isNumber value then .ok (.number (parseInt value))
      else .error (.validation
        { message := "Type (INT) validation failed"
          meta := { validator := none, value := some value, originalError := none }
          program := this._program }) := by
  unfold hasFlag at h
  unfold Validator.validateLeaf
  rw [if_pos h]
  cases Validator.isNumber value <;> rfl

theorem validateLeaf_float (c : Constants) (this : Validator) (n : Number) (value : Value)
    (hi : ¬ hasFlag c.INT n) (h : hasFlag c.FLOAT n) :
    Validator.validateLeaf c this n value =
      if Validator.isNumber value then .ok (.number (parseFloat value))
      else .error (.validation
        { message := "Type (FLOAT) validation failed"
          meta := { validator := none, value := some value, originalError := none }
          program := this._program }) := by
  unfold hasFlag at h hi
  unfold Validator.validateLeaf
  rw [if_neg hi, if_pos h]
  cases Validator.isNumber value <;> rfl

theorem isNumber_eq_false_iff (v : Value) :
    Validator.isNumber v = false ↔ (parseFloat v).isNaN = true := by
  unfold Validator.isNumber
  cases (parseFloat v).isNaN <;> simp

/-! ## Parsing decimal literals -/

theorem ToString_string (s : JSString) : ToString (.string s) = s := by
  simp [ToString]

theorem isDecimalDigit_iff (c : Char) : isDecimalDigit c = true ↔ 48 ≤ c.toNat ∧ c.toNat ≤ 57 := by
  simp [isDecimalDigit]

theorem not_ws_of_digit (c : Char) (h : isDecimalDigit c = true) : isStrWhiteSpaceChar c = false := by
  rw [isDecimalDigit_iff] at h
  unfold isStrWhiteSpaceChar
  simp only [List.contains, List.elem_eq_mem, decide_eq_false_iff_not]
  simp
  omega

theorem radixDigit_ten (c : Char) : (radixDigitValue 10 c).isSome = isDecimalDigit c := by
  unfold radixDigitValue isDecimalDigit
  by_cases h1 : 48 ≤ c.toNat <;> by_cases h2 : c.toNat ≤ 57
  · have : c.toNat - 48 < 10 := by omega
    simp [h1, h2, this]
  · simp only [h1, h2, and_false, if_false, decide_True, decide_False, Bool.and_false]
    split_ifs <;> simp <;> omega
  · have h3 : ¬ (97 ≤ c.toNat ∧ c.toNat ≤ 122) := by omega
    have h4 : ¬ (65 ≤ c.toNat ∧ c.toNat ≤ 90) := by omega
    simp [h1, h3, h4]
  · omega

theorem radixDigit_ten_val (c : Char) (h : isDecimalDigit c = true) :
    (radixDigitValue 10 c).getD 0 = c.toNat - 48 := by
  rw [isDecimalDigit_iff] at h
  unfold radixDigitValue
  have : c.toNat - 48 < 10 := by omega
  simp [h, this]

theorem takeWhile_digits (ds fs : JSString) (h : allDigits ds) :
    (ds ++ '.' :: fs).takeWhile isDecimalDigit = ds
    ∧ (ds ++ '.' :: fs).dropWhile isDecimalDigit = '.' :: fs := by
  induction ds with
  | nil => exact ⟨by simp [List.takeWhile, isDecimalDigit], by simp [List.dropWhile, isDecimalDigit]⟩
  | cons d ds ih =>
    have hd : isDecimalDigit d = true := h d (List.mem_cons_self _ _)
    have ih2 := ih (fun c hc => h c (List.mem_cons_of_mem _ hc))
    simp [List.takeWhile, List.dropWhile, hd, ih2.1, ih2.2]

theorem takeWhile_digits_nil (ds : JSString) (h : allDigits ds) :
    ds.takeWhile isDecimalDigit = ds ∧ ds.dropWhile isDecimalDigit = [] := by
  induction ds with
  | nil => simp
  | cons d ds ih =>
    have hd : isDecimalDigit d = true := h d (List.mem_cons_self _ _)
    have ih2 := ih (fun c hc => h c (List.mem_cons_of_mem _ hc))
    simp [List.takeWhile, List.dropWhile, hd, ih2.1, ih2.2]

theorem digitsToNat_append_one (ds : JSString) (c : Char) :
    digitsToNat 10 (ds ++ [c]) = 10 * digitsToNat 10 ds + (radixDigitValue 10 c).getD 0 := by
  simp [digitsToNat, List.foldl_append]

theorem digitsToNat_eq_decimalValue (ds : JSString) (h : allDigits ds) :
    digitsToNat 10 ds = decimalValue ds := by
  induction ds using List.reverseRecOn with
  | nil => simp [digitsToNat, decimalValue]
  | append_singleton ds c ih =>
    have hc : isDecimalDigit c = true := h c (by simp)
    have ih2 := ih (fun x hx => h x (by simp [hx]))
    rw [digitsToNat_append_one, ih2, radixDigit_ten_val c hc]
    simp [decimalValue, Nat.ofDigits_cons]
    ring

theorem splitSign_digit (d : Char) (r : JSString) (h : isDecimalDigit d = true) :
    splitSign (d :: r) = (false, d :: r) := by
  rw [isDecimalDigit_iff] at h
  unfold splitSign
  split
  · rename_i heq; simp at heq; rw [heq.1] at h; simp at h
  · rename_i heq; simp at heq; rw [heq.1] at h; simp at h
  · rfl

theorem trimStart_digit (d : Char) (r : JSString) (h : isDecimalDigit d = true) :
    trimStart (d :: r) = d :: r := by
  simp [trimStart, List.dropWhile, not_ws_of_digit d h]

theorem second_not_letter (ds frac r : JSString) (x : Char) (h : allDigits ds)
    (hf : frac = [] ∨ ∃ fs, frac = '.' :: fs) (hx : isDecimalDigit x = false) (hx2 : x ≠ '.')
    (heq : ds ++ frac = '0' :: x :: r) : False := by
  cases ds with
  | nil =>
    rcases hf with hf | ⟨fs, hf⟩
    · simp [hf] at heq
    · simp [hf] at heq
  | cons d ds =>
    simp at heq
    cases ds with
    | nil =>
      rcases hf with hf | ⟨fs, hf⟩
      · simp [hf] at heq
      · simp [hf] at heq
        exact hx2 heq.2.1.symm
    | cons d2 ds =>
      simp at heq
      have := h d2 (by simp)
      rw [heq.2.1] at this
      rw [this] at hx
      exact absurd hx (by decide)

theorem splitSign_literal (sign ds frac : JSString)
    (hs : sign = [] ∨ sign = ['+'] ∨ sign = ['-']) (hne : ds ≠ []) (h : allDigits ds) :
    splitSign (trimStart (ToString (.string (sign ++ (ds ++ frac)))))
      = (decide (sign = ['-']), ds ++ frac) := by
  obtain ⟨d, ds', rfl⟩ := List.exists_cons_of_ne_nil hne
  have hd : isDecimalDigit d = true := h d (by simp)
  rw [ToString_string]
  rcases hs with hs | hs | hs <;> subst hs
  · simp only [List.nil_append, List.cons_append]
    rw [trimStart_digit d _ hd, splitSign_digit d _ hd]
    rfl
  · have : trimStart (['+'] ++ (d :: ds' ++ frac)) = '+' :: (d :: ds' ++ frac) := by
      simp [trimStart, List.dropWhile, isStrWhiteSpaceChar]
    rw [this]
    rfl
  · have : trimStart (['-'] ++ (d :: ds' ++ frac)) = '-' :: (d :: ds' ++ frac) := by
      simp [trimStart, List.dropWhile, isStrWhiteSpaceChar]
    rw [this]
    rfl

theorem parseInt_literal (sign ds frac : JSString)
    (hs : sign = [] ∨ sign = ['+'] ∨ sign = ['-']) (hne : ds ≠ []) (h : allDigits ds)
    (hf : frac = [] ∨ ∃ fs, frac = '.' :: fs) :
    parseInt (.string (sign ++ (ds ++ frac)))
      = Number.fin (decide (sign = ['-'])) (decimalValue ds) 0 := by
  have hsplit := splitSign_literal sign ds frac hs hne h
  obtain ⟨d, ds', rfl⟩ := List.exists_cons_of_ne_nil hne
  have hm : radixMarker (d :: ds' ++ frac) = (10, d :: ds' ++ frac) := by
    unfold radixMarker
    split
    · rename_i r heq
      exact absurd heq (fun he => second_not_letter _ _ _ _ h hf (by decide) (by decide) he)
    · rename_i r heq
      exact absurd heq (fun he => second_not_letter _ _ _ _ h hf (by decide) (by decide) he)
    · rfl
  have htw : (d :: ds' ++ frac).takeWhile (fun c => (radixDigitValue 10 c).isSome) = d :: ds' := by
    have hfun : (fun c => (radixDigitValue 10 c).isSome) = isDecimalDigit := funext radixDigit_ten
    rw [hfun]
    rcases hf with hf | ⟨fs, hf⟩
    · rw [hf, List.append_nil]; exact (takeWhile_digits_nil _ h).1
    · rw [hf]; exact (takeWhile_digits _ fs h).1
  unfold parseInt
  rw [hsplit]
  simp only [hm, htw]
  rw [if_neg (by simp), digitsToNat_eq_decimalValue _ h]

theorem normalize_isNaN (neg : Bool) (e m : Nat) : (Number.normalize neg m e).isNaN = false := by
  induction e generalizing m with
  | zero => rfl
  | succ e ih =>
    unfold Number.normalize
    split
    · exact ih _
    · rfl

theorem ofDecimal_isNaN (neg : Bool) (m : Nat) (sc : Int) :
    (Number.ofDecimal neg m sc).isNaN = false := by
  unfold Number.ofDecimal
  split
  · rfl
  · split
    · rfl
    · exact normalize_isNaN _ _ _

theorem parseFloat_literal (sign ds frac : JSString)
    (hs : sign = [] ∨ sign = ['+'] ∨ sign = ['-']) (hne : ds ≠ []) (h : allDigits ds)
    (hf : frac = [] ∨ ∃ fs, frac = '.' :: fs) :
    (parseFloat (.string (sign ++ (ds ++ frac)))).isNaN = false := by
  have hsplit := splitSign_literal sign ds frac hs hne h
  obtain ⟨d, ds', rfl⟩ := List.exists_cons_of_ne_nil hne
  have hd : isDecimalDigit d = true := h d (by simp)
  have htw : (d :: ds' ++ frac).takeWhile isDecimalDigit = d :: ds' := by
    rcases hf with hf | ⟨fs, hf⟩
    · rw [hf, List.append_nil]; exact (takeWhile_digits_nil _ h).1
    · rw [hf]; exact (takeWhile_digits _ fs h).1
  have hinf : "Infinity".toList.isPrefixOf (d :: ds' ++ frac) = false := by
    rw [isDecimalDigit_iff] at hd
    have : ¬ ('I' = d) := by
      intro he; rw [← he] at hd; simp at hd
    simp [List.isPrefixOf, this]
  unfold parseFloat
  rw [hsplit]
  simp only [hinf, htw]
  simp [ofDecimal_isNaN]

/-! ## Case-insensitive matching and the search loop of `test` -/

theorem toNat_ofNat_small (n : Nat) (h : n < 55296) : (Char.ofNat n).toNat = n := by
  unfold Char.ofNat
  rw [dif_pos (Or.inl h)]
  rfl

theorem char_eq_of_toNat {a b : Char} (h : a.toNat = b.toNat) : a = b := by
  rw [← Char.ofNat_toNat a, ← Char.ofNat_toNat b, h]

theorem canonicalize_toNat (c : Char) :
    (canonicalize c).toNat = if 97 ≤ c.toNat ∧ c.toNat ≤ 122 then c.toNat - 32 else c.toNat := by
  unfold canonicalize Char.toUpper
  by_cases h : 97 ≤ c.toNat ∧ c.toNat ≤ 122
  · have h128 : c.toNat < 128 := by omega
    simp only [h128, if_true, ge_iff_le, h, and_self]
    exact toNat_ofNat_small _ (by omega)
  · simp only [ge_iff_le, h, if_false, ite_self]

theorem toLower_toNat (c : Char) :
    c.toLower.toNat = if 65 ≤ c.toNat ∧ c.toNat ≤ 90 then c.toNat + 32 else c.toNat := by
  unfold Char.toLower
  by_cases h : 65 ≤ c.toNat ∧ c.toNat ≤ 90
  · simp only [ge_iff_le, h, and_self, if_true]
    exact toNat_ofNat_small _ (by omega)
  · simp only [ge_iff_le, h, if_false]

theorem canonicalize_eq_iff (p c : Char) (hp : isLowerOrDigit p) :
    canonicalize p = canonicalize c ↔ c.toLower = p := by
  constructor
  · intro h
    apply char_eq_of_toNat
    have h2 := congrArg Char.toNat h
    rw [canonicalize_toNat, canonicalize_toNat] at h2
    rw [toLower_toNat]
    unfold isLowerOrDigit at hp
    split_ifs at h2 ⊢ <;> omega
  · intro h
    apply char_eq_of_toNat
    have h2 := congrArg Char.toNat h
    rw [toLower_toNat] at h2
    rw [canonicalize_toNat, canonicalize_toNat]
    unfold isLowerOrDigit at hp
    split_ifs at h2 ⊢ <;> omega

theorem matchLiteral_iff (p s : JSString) (hp : ∀ x ∈ p, isLowerOrDigit x) :
    matchLiteral p s = some [] ↔ s.map Char.toLower = p := by
  induction p generalizing s with
  | nil =>
    cases s <;> simp [matchLiteral]
  | cons x p ih =>
    cases s with
    | nil => simp [matchLiteral]
    | cons c cs =>
      have hx := hp x (by simp)
      have ih2 := ih cs (fun y hy => hp y (by simp [hy]))
      unfold matchLiteral
      by_cases hc : canonicalize x = canonicalize c
      · rw [if_pos hc, ih2]
        have := (canonicalize_eq_iff x c hx).1 hc
        simp [this]
      · rw [if_neg hc]
        have : ¬ c.toLower = x := fun h => hc ((canonicalize_eq_iff x c hx).2 h)
        simp [this]

theorem execFrom_isSome_iff (r : RegExp) (s : JSString) (hs : r.sticky = false)
    (fuel i : Nat) :
    (r.execFrom s fuel i).isSome = true
      ↔ ∃ j, i ≤ j ∧ j < i + fuel ∧ j ≤ s.length ∧ (r.matcher s j).isSome = true := by
  induction fuel generalizing i with
  | zero =>
    simp only [RegExp.execFrom, Option.isSome_none, Bool.false_eq_true, false_iff, not_exists]
    intro j hj
    omega
  | succ fuel ih =>
    unfold RegExp.execFrom
    by_cases hlen : s.length < i
    · rw [if_pos hlen]
      simp only [Option.isSome_none, Bool.false_eq_true, false_iff, not_exists]
      intro j hj
      omega
    · rw [if_neg hlen]
      cases hm : r.matcher s i with
      | some e =>
        simp only [Option.isSome_some, true_iff]
        exact ⟨i, Nat.le_refl _, by omega, by omega, by rw [hm]; rfl⟩
      | none =>
        simp only [hs, Bool.false_eq_true, if_false]
        rw [ih (i + 1)]
        constructor
        · rintro ⟨j, h1, h2, h3, h4⟩
          exact ⟨j, by omega, by omega, h3, h4⟩
        · rintro ⟨j, h1, h2, h3, h4⟩
          have hne : j ≠ i := by
            intro he; rw [he, hm] at h4; simp at h4
          exact ⟨j, by omega, by omega, h3, h4⟩

theorem execFrom_sticky (r : RegExp) (s : JSString) (hs : r.sticky = true) (fuel i : Nat) :
    (r.execFrom s (fuel + 1) i).isSome = true
      ↔ i ≤ s.length ∧ (r.matcher s i).isSome = true := by
  unfold RegExp.execFrom
  by_cases hlen : s.length < i
  · rw [if_pos hlen]
    simp only [Option.isSome_none, Bool.false_eq_true, false_iff, not_and]
    intro h; omega
  · rw [if_neg hlen]
    cases hm : r.matcher s i with
    | some e => simp; omega
    | none => simp [hs]

theorem test_fst_eq (r : RegExp) (s : JSString) :
    (r.test s).1 = (r.execFrom s (s.length + 1 - r.startIndex) r.startIndex).isSome := by
  unfold RegExp.test
  cases r.execFrom s (s.length + 1 - r.startIndex) r.startIndex <;> rfl

theorem boolRegExp_test_iff (s : JSString) :
    (boolRegExp.test s).1 = true ↔ isBoolToken s := by
  rw [test_fst_eq, execFrom_isSome_iff boolRegExp s rfl]
  have hstart : boolRegExp.startIndex = 0 := rfl
  rw [hstart]
  have hlit : ∀ alt ∈ boolAlternatives, (matchLiteral alt s = some [] ↔ s.map Char.toLower = alt) := by
    intro alt halt
    apply matchLiteral_iff
    intro x hx
    unfold isLowerOrDigit
    simp [boolAlternatives] at halt
    rcases halt with h | h | h | h | h | h <;> subst h <;>
      simp only [String.toList, List.mem_cons, List.mem_singleton, List.not_mem_nil,
        or_false] at hx <;>
      (try rcases hx with h | h | h | h | h) <;> (try subst h) <;> decide
  constructor
  · rintro ⟨j, _, _, _, hj⟩
    simp only [boolRegExp] at hj
    split_ifs at hj with hc
    · obtain ⟨_, hany⟩ := hc
      rw [List.any_eq_true] at hany
      obtain ⟨alt, halt, hm⟩ := hany
      have hm2 : matchLiteral alt s = some [] := by simpa using hm
      have := (hlit alt halt).1 hm2
      unfold isBoolToken
      simp [boolAlternatives] at halt
      rcases halt with h | h | h | h | h | h <;> subst h <;> simp [this]
    · simp at hj
  · intro h
    refine ⟨0, Nat.le_refl _, by omega, by omega, ?_⟩
    have hany : boolAlternatives.any (fun alt => matchLiteral alt s == some []) = true := by
      rw [List.any_eq_true]
      unfold isBoolToken at h
      rcases h with h | h | h | h | h | h
      · exact ⟨"true".toList, by simp [boolAlternatives], by simpa using (hlit "true".toList (by simp [boolAlternatives])).2 h⟩
      · exact ⟨"false".toList, by simp [boolAlternatives], by simpa using (hlit "false".toList (by simp [boolAlternatives])).2 h⟩
      · exact ⟨"yes".toList, by simp [boolAlternatives], by simpa using (hlit "yes".toList (by simp [boolAlternatives])).2 h⟩
      · exact ⟨"no".toList, by simp [boolAlternatives], by simpa using (hlit "no".toList (by simp [boolAlternatives])).2 h⟩
      · exact ⟨"0".toList, by simp [boolAlternatives], by simpa using (hlit "0".toList (by simp [boolAlternatives])).2 h⟩
      · exact ⟨"1".toList, by simp [boolAlternatives], by simpa using (hlit "1".toList (by simp [boolAlternatives])).2 h⟩
    simp only [boolRegExp, hany, and_self, if_true, Option.isSome_some]

/-! ## The leaf branches, `split` and `map` -/

theorem validateLeaf_bool_boolean (c : Constants) (this : Validator) (n : Number) (b : Bool)
    (hi : ¬ hasFlag c.INT n) (hf : ¬ hasFlag c.FLOAT n) (h : hasFlag c.BOOL n) :
    Validator.validateLeaf c this n (.boolean b) = .ok (.boolean b) := by
  unfold hasFlag at h hi hf
  unfold Validator.validateLeaf
  rw [if_neg hi, if_neg hf, if_pos h]

theorem validateLeaf_bool_other (c : Constants) (this : Validator) (n : Number) (value : Value)
    (hi : ¬ hasFlag c.INT n) (hf : ¬ hasFlag c.FLOAT n) (h : hasFlag c.BOOL n)
    (hv : ∀ b, value ≠ .boolean b) :
    Validator.validateLeaf c this n value =
      if (boolRegExp.test (ToString value)).1 = true then
        .ok (.boolean (!(strictEqualsString value "0".toList
          || strictEqualsString value "no".toList
          || strictEqualsString value "false".toList)))
      else .error (.validation
        { message := "Type (BOOL) validation failed"
          meta := { validator := none, value := some value, originalError := none }
          program := this._program }) := by
  unfold hasFlag at h hi hf
  unfold Validator.validateLeaf
  rw [if_neg hi, if_neg hf, if_pos h]
  cases value <;> first
    | exact absurd rfl (hv _)
    | (cases hb : (boolRegExp.test _).1 <;> simp [hb])

theorem splitComma_ne_nil (s : JSString) : splitComma s ≠ [] := by
  cases s with
  | nil => simp [splitComma]
  | cons c cs =>
    unfold splitComma
    split_ifs
    · simp
    · split <;> simp

theorem splitComma_length (s : JSString) : (splitComma s).length = s.count ',' + 1 := by
  induction s with
  | nil => simp [splitComma]
  | cons c cs ih =>
    unfold splitComma
    by_cases hc : c = ','
    · subst hc
      simp [ih]
    · rw [if_neg hc]
      have hcount : (c :: cs).count ',' = cs.count ',' := by
        rw [List.count_cons]
        simp [hc]
      rw [hcount, ← ih]
      cases h : splitComma cs with
      | nil => exact absurd h (splitComma_ne_nil cs)
      | cons a t => simp

theorem splitComma_join (s : JSString) : [','].intercalate (splitComma s) = s := by
  induction s with
  | nil => simp [splitComma, List.intercalate]
  | cons c cs ih =>
    unfold splitComma
    by_cases hc : c = ','
    · subst hc
      rw [if_pos rfl]
      cases h : splitComma cs with
      | nil => exact absurd h (splitComma_ne_nil cs)
      | cons a t =>
        rw [h] at ih
        simp [List.intercalate] at ih ⊢
        exact ih
    · rw [if_neg hc]
      cases h : splitComma cs with
      | nil => exact absurd h (splitComma_ne_nil cs)
      | cons a t =>
        rw [h] at ih
        simp [List.intercalate] at ih ⊢
        cases t with
        | nil => simpa using ih
        | cons b t => simpa using ih

theorem splitComma_no_comma (s : JSString) : ∀ part ∈ splitComma s, ',' ∉ part := by
  induction s with
  | nil => simp [splitComma]
  | cons c cs ih =>
    unfold splitComma
    by_cases hc : c = ','
    · rw [if_pos hc]
      intro part hp
      simp at hp
      rcases hp with hp | hp
      · simp [hp]
      · exact ih part hp
    · rw [if_neg hc]
      cases h : splitComma cs with
      | nil => exact absurd h (splitComma_ne_nil cs)
      | cons a t =>
        rw [h] at ih
        intro part hp
        simp at hp
        rcases hp with hp | hp
        · subst hp
          have := ih a (by simp)
          simp [this]
          exact fun h => hc h.symm
        · exact ih part (by simp [hp])

theorem mapThrowing_ok (f : Value → Except JSError Value) (es : List Value)
    (h : ∀ el ∈ es, ∃ r, f el = .ok r) :
    ∃ rs, mapThrowing f es = .ok rs ∧ List.Forall₂ (fun el r => f el = .ok r) es rs := by
  induction es with
  | nil => exact ⟨[], rfl, List.Forall₂.nil⟩
  | cons x xs ih =>
    obtain ⟨r, hr⟩ := h x (by simp)
    obtain ⟨rs, hrs, hall⟩ := ih (fun el hel => h el (by simp [hel]))
    refine ⟨r :: rs, ?_, List.Forall₂.cons hr hall⟩
    simp [mapThrowing, hr, hrs]

theorem mapThrowing_error (f : Value → Except JSError Value) (pre post : List Value) (x : Value)
    (e : JSError) (hpre : ∀ el ∈ pre, ∃ r, f el = .ok r) (hx : f x = .error e) :
    mapThrowing f (pre ++ x :: post) = .error e := by
  induction pre with
  | nil => simp [mapThrowing, hx]
  | cons y ys ih =>
    obtain ⟨r, hr⟩ := hpre y (by simp)
    have := ih (fun el hel => hpre el (by simp [hel]))
    simp [mapThrowing, hr, this]

theorem validateWithFlags_array (c : Constants) (this : Validator) (n : Number) (v : Value)
    (es : List Value) (hA : hasFlag c.ARRAY n) (hv : elementsOf v = some es) :
    Validator._validateWithFlags c this n v false =
      match mapThrowing (Validator.validateLeaf c this n) es with
      | .error e => .error e
      | .ok ys => .ok (.array ys) := by
  unfold hasFlag at hA
  unfold Validator._validateWithFlags
  simp only [Bool.not_false, Bool.true_and, decide_eq_true_eq]
  rw [if_pos hA]
  cases v <;> simp [elementsOf] at hv <;> subst hv <;> rfl

/-! ## `test` and the pattern -/

theorem startIndex_zero (r : RegExp) (hs : r.sticky = false)
    (hg : r.global = false ∨ r.lastIndex = 0) : r.startIndex = 0 := by
  unfold RegExp.startIndex
  rcases hg with hg | hg
  · simp [hs, hg]
  · simp [hg]

theorem test_iff_patternMatches (r : RegExp) (s : JSString) (hs : r.sticky = false)
    (hg : r.global = false ∨ r.lastIndex = 0) :
    (r.test s).1 = true ↔ patternMatches r s := by
  rw [test_fst_eq, execFrom_isSome_iff r s hs, startIndex_zero r hs hg]
  unfold patternMatches
  constructor
  · rintro ⟨j, _, _, h3, h4⟩
    exact ⟨j, h3, h4⟩
  · rintro ⟨j, h3, h4⟩
    exact ⟨j, Nat.zero_le _, by omega, h3, h4⟩

theorem test_snd_of_fail (r : RegExp) (s : JSString)
    (hg : r.global = false ∨ r.lastIndex = 0) (hs : r.sticky = false)
    (ht : (r.test s).1 = false) : (r.test s).2 = r := by
  unfold RegExp.test at ht ⊢
  cases hex : r.execFrom s (s.length + 1 - r.startIndex) r.startIndex with
  | some e => rw [hex] at ht; simp at ht
  | none =>
    simp only
    rcases hg with hg | hg
    · simp [hg, hs]
    · split_ifs
      · cases r
        simp only at hg
        subst hg
        rfl
      · rfl

/-! ## Setup checks and flag combinations -/

theorem append_singleton_ne {α : Type} (l : List α) (x : α) : l ++ [x] ≠ l := by
  intro h
  have := congrArg List.length h
  simp at this

theorem checkFlag_invalid (c : Constants) (this : Validator) (n : Number) (program : Program)
    (h : ∀ k ∈ c.all, bitAnd k n = 0) :
    Validator._checkFlagValidator c this n program
      = program.fatalError (flagSetupError this._validator this._program) := by
  unfold Validator._checkFlagValidator
  have : c.all.all (fun v => bitAnd v n == 0) = true := by
    rw [List.all_eq_true]
    intro k hk
    simp [h k hk]
  simp only [this, if_true]
  rfl

theorem checkFlag_valid (c : Constants) (this : Validator) (n : Number) (program : Program)
    (h : ¬ ∀ k ∈ c.all, bitAnd k n = 0) :
    Validator._checkFlagValidator c this n program = program := by
  unfold Validator._checkFlagValidator
  have : c.all.all (fun v => bitAnd v n == 0) = false := by
    cases hx : c.all.all (fun v => bitAnd v n == 0)
    · rfl
    · exfalso
      apply h
      rw [List.all_eq_true] at hx
      intro k hk
      simpa using hx k hk
  simp only [this]
  rfl

theorem testBit_combineFlags (ks : List Nat) (k : Nat) (hk : k ∈ ks) (i : Nat)
    (hi : k.testBit i = true) : (combineFlags ks).testBit i = true := by
  induction ks with
  | nil => simp at hk
  | cons a ks ih =>
    unfold combineFlags
    simp only [List.foldr_cons, Nat.testBit_lor]
    simp only [List.mem_cons] at hk
    rcases hk with hk | hk
    · subst hk
      simp [hi]
    · have := ih hk
      unfold combineFlags at this
      simp [this]

theorem combineFlags_ne_zero (ks : List Nat) (h : combineFlags ks ≠ 0) :
    ∃ k ∈ ks, k ≠ 0 := by
  induction ks with
  | nil => simp [combineFlags] at h
  | cons a ks ih =>
    by_cases ha : a = 0
    · have h2 : combineFlags ks ≠ 0 := by
        intro h0
        apply h
        unfold combineFlags at h0 ⊢
        simp [ha, h0]
      obtain ⟨k, hk, hk0⟩ := ih h2
      exact ⟨k, by simp [hk], hk0⟩
    · exact ⟨a, by simp, ha⟩

theorem bitAnd_member_ne_zero (ks : List Nat) (k : Nat) (hk : k ∈ ks) (hk0 : k ≠ 0)
    (hlt : k < 2 ^ 32) : bitAnd k (.fin false (combineFlags ks) 0) ≠ 0 := by
  obtain ⟨i, hi⟩ := Nat.ne_zero_implies_bit_true hk0
  have hi32 : i < 32 := by
    by_contra hge
    have h1 : k < 2 ^ i := lt_of_lt_of_le hlt (Nat.pow_le_pow_right (by decide) (by omega))
    rw [Nat.testBit_lt_two_pow h1] at hi
    exact absurd hi (by decide)
  intro h0
  have hb : (bitAnd k (.fin false (combineFlags ks) 0)).testBit i = true := by
    unfold bitAnd toUint32
    simp only [pow_zero, Nat.div_one, Bool.false_eq_true, if_false, Nat.testBit_land,
      Nat.testBit_mod_two_pow, hi32, decide_True, Bool.true_and, hi,
      testBit_combineFlags ks k hk i hi, Bool.and_self]
  rw [h0] at hb
  simp at hb

/-! ## The shape of the errors -/

theorem validateWithRegExp_eq (this : Validator) (r : RegExp) (v : Value) :
    Validator._validateWithRegExp this r v =
      if (r.test (ToString v)).1 = true then (.ok v, (r.test (ToString v)).2)
      else
        (.error (.validation
          { message := "RegExp validation failed"
            meta := { validator := some (Spec.regExp (r.test (ToString v)).2), value := some v,
                      originalError := none }
            program := this._program }), (r.test (ToString v)).2) := by
  unfold Validator._validateWithRegExp
  cases h : (r.test (ToString v)).1 <;> simp [h]

theorem validateLeaf_none (c : Constants) (this : Validator) (n : Number) (value : Value)
    (hi : ¬ hasFlag c.INT n) (hf : ¬ hasFlag c.FLOAT n) (hb : ¬ hasFlag c.BOOL n) :
    Validator.validateLeaf c this n value = .ok .undefined := by
  unfold hasFlag at hi hf hb
  unfold Validator.validateLeaf
  rw [if_neg hi, if_neg hf, if_neg hb]

theorem validateLeaf_error_shape (c : Constants) (this : Validator) (n : Number) (v : Value)
    (e : ValidationError) (h : Validator.validateLeaf c this n v = .error (.validation e)) :
    e.program = this._program ∧ e.meta.value = some v ∧ e.meta.validator = none := by
  by_cases hI : hasFlag c.INT n
  · rw [validateLeaf_int c this n v hI] at h
    split_ifs at h
    simp only [Except.error.injEq, JSError.validation.injEq] at h
    subst h
    exact ⟨rfl, rfl, rfl⟩
  · by_cases hF : hasFlag c.FLOAT n
    · rw [validateLeaf_float c this n v hI hF] at h
      split_ifs at h
      simp only [Except.error.injEq, JSError.validation.injEq] at h
      subst h
      exact ⟨rfl, rfl, rfl⟩
    · by_cases hB : hasFlag c.BOOL n
      · by_cases hv : ∀ b, v ≠ .boolean b
        · rw [validateLeaf_bool_other c this n v hI hF hB hv] at h
          split_ifs at h
          simp only [Except.error.injEq, JSError.validation.injEq] at h
          subst h
          exact ⟨rfl, rfl, rfl⟩
        · simp only [ne_eq, not_forall, not_not] at hv
          obtain ⟨b, hb⟩ := hv
          subst hb
          rw [validateLeaf_bool_boolean c this n b hI hF hB] at h
          simp at h
      · rw [validateLeaf_none c this n v hI hF hB] at h
        simp at h

theorem mapThrowing_first_error (f : Value → Except JSError Value) (es : List Value)
    (e : JSError) (h : mapThrowing f es = .error e) :
    ∃ pre el post, es = pre ++ el :: post ∧ (∀ y ∈ pre, ∃ r, f y = .ok r)
      ∧ f el = .error e := by
  induction es with
  | nil => simp [mapThrowing] at h
  | cons x xs ih =>
    unfold mapThrowing at h
    cases hx : f x with
    | error e2 =>
      rw [hx] at h
      simp only [Except.error.injEq] at h
      subst h
      exact ⟨[], x, xs, rfl, by simp, hx⟩
    | ok y =>
      rw [hx] at h
      simp only at h
      cases hxs : mapThrowing f xs with
      | error e3 =>
        rw [hxs] at h
        simp only [Except.error.injEq] at h
        subst h
        obtain ⟨pre, el, post, hes, hpre, hel⟩ := ih hxs
        refine ⟨x :: pre, el, post, by rw [hes]; rfl, ?_, hel⟩
        intro z hz
        simp only [List.mem_cons] at hz
        rcases hz with hz | hz
        · subst hz; exact ⟨y, hx⟩
        · exact hpre z hz
      | ok ys =>
        rw [hxs] at h
        simp at h

theorem validateWithFlags_error_shape (c : Constants) (this : Validator) (n : Number) (v : Value)
    (e : ValidationError)
    (h : Validator._validateWithFlags c this n v false = .error (.validation e)) :
    e.program = this._program ∧ e.meta.validator = none
    ∧ (¬ hasFlag c.ARRAY n → e.meta.value = some v)
    ∧ (hasFlag c.ARRAY n → ∃ es pre el post, elementsOf v = some es ∧ es = pre ++ el :: post
        ∧ (∀ y ∈ pre, returns (Validator._validateWithFlags c this n y true))
        ∧ Validator._validateWithFlags c this n el true = .error (.validation e)
        ∧ e.meta.value = some el) := by
  by_cases hA : hasFlag c.ARRAY n
  · cases hel : elementsOf v with
    | none =>
      unfold hasFlag at hA
      unfold Validator._validateWithFlags at h
      simp only [Bool.not_false, Bool.true_and, decide_eq_true_eq] at h
      rw [if_pos hA] at h
      cases v <;> simp [elementsOf] at hel <;> simp at h
    | some es =>
      rw [validateWithFlags_array c this n v es hA hel] at h
      cases hm : mapThrowing (Validator.validateLeaf c this n) es with
      | ok ys => rw [hm] at h; simp at h
      | error e2 =>
        rw [hm] at h
        simp only [Except.error.injEq] at h
        subst h
        obtain ⟨pre, el, post, hes, hpre, hf⟩ := mapThrowing_first_error _ es _ hm
        obtain ⟨h1, h2, h3⟩ := validateLeaf_error_shape c this n el e hf
        refine ⟨h1, h3, fun hn => absurd hA hn, fun _ => ⟨es, pre, el, post, rfl, hes, ?_, ?_, h2⟩⟩
        · intro y hy
          rw [validateWithFlags_unary]
          exact hpre y hy
        · rw [validateWithFlags_unary]
          exact hf
  · rw [validateWithFlags_leaf c this n v hA] at h
    obtain ⟨h1, h2, h3⟩ := validateLeaf_error_shape c this n v e h
    exact ⟨h1, h3, fun _ => h2, fun hx => absurd hx hA⟩

/-! ## C1 -/

/-- C1: under a numeric validator with INT set and ARRAY unset, `validate(v)` throws the
ValidationError "Type (INT) validation failed" exactly when `parseFloat(v)` is NaN, and
returns otherwise; under one with FLOAT set and INT and ARRAY unset, the same holds with
"Type (FLOAT) validation failed". This holds for every value `v`, leaf values included. -/
theorem C1_numeric_check_decides_raise (c : Constants) (n : Number) (program : Program)
    (v : Value) :
    (hasFlag c.INT n → ¬ hasFlag c.ARRAY n →
      (raisesValidation (validateFlags c n program v) "Type (INT) validation failed"
          ↔ (parseFloat v).isNaN = true)
        ∧ ((parseFloat v).isNaN = false → returns (validateFlags c n program v)))
    ∧ (hasFlag c.FLOAT n → ¬ hasFlag c.INT n → ¬ hasFlag c.ARRAY n →
      (raisesValidation (validateFlags c n program v) "Type (FLOAT) validation failed"
          ↔ (parseFloat v).isNaN = true)
        ∧ ((parseFloat v).isNaN = false → returns (validateFlags c n program v))) := by
  refine ⟨fun hI hA => ?_, fun hF hI hA => ?_⟩
  · rw [validateFlags_eq, validateWithFlags_leaf c _ n v hA, validateLeaf_int c _ n v hI]
    cases hnum : Validator.isNumber v
    · have hnan := (isNumber_eq_false_iff v).1 hnum
      refine ⟨⟨fun _ => hnan, fun _ => ⟨_, rfl, rfl⟩⟩, fun h => ?_⟩
      rw [hnan] at h
      exact absurd h (by decide)
    · have hnan : (parseFloat v).isNaN = false := by
        unfold Validator.isNumber at hnum
        cases hx : (parseFloat v).isNaN
        · rfl
        · rw [hx] at hnum; exact absurd hnum (by decide)
      refine ⟨⟨fun h => ?_, fun h => ?_⟩, fun _ => ⟨_, rfl⟩⟩
      · obtain ⟨e, he, _⟩ := h
        simp at he
      · rw [hnan] at h
        exact absurd h (by decide)
  · rw [validateFlags_eq, validateWithFlags_leaf c _ n v hA, validateLeaf_float c _ n v hI hF]
    cases hnum : Validator.isNumber v
    · have hnan := (isNumber_eq_false_iff v).1 hnum
      refine ⟨⟨fun _ => hnan, fun _ => ⟨_, rfl, rfl⟩⟩, fun h => ?_⟩
      rw [hnan] at h
      exact absurd h (by decide)
    · have hnan : (parseFloat v).isNaN = false := by
        unfold Validator.isNumber at hnum
        cases hx : (parseFloat v).isNaN
        · rfl
        · rw [hx] at hnum; exact absurd hnum (by decide)
      refine ⟨⟨fun h => ?_, fun h => ?_⟩, fun _ => ⟨_, rfl⟩⟩
      · obtain ⟨e, he, _⟩ := h
        simp at he
      · rw [hnan] at h
        exact absurd h (by decide)

/-- Witness of C1: with INT = 1, `validate("abc")` throws and `validate("5")` returns. -/
theorem C1_numeric_check_witness :
    raisesValidation (validateFlags stdConstants (.fin false 1 0) freshProgram
        (.string "abc".toList)) "Type (INT) validation failed"
    ∧ returns (validateFlags stdConstants (.fin false 1 0) freshProgram
        (.string "5".toList)) :=
  ⟨((C1_numeric_check_decides_raise stdConstants (.fin false 1 0) freshProgram
      (.string "abc".toList)).1 (by decide) (by decide)).1.2 (by decide),
   ((C1_numeric_check_decides_raise stdConstants (.fin false 1 0) freshProgram
      (.string "5".toList)).1 (by decide) (by decide)).2 (by decide)⟩

/-! ## C2 -/

/-- C2: for a decimal literal (an optional sign, one or more digits, optionally a `.`
and further digits) whose integer part is below `2 ^ 53`, `validate` under a numeric
validator with INT set (and ARRAY unset) returns the Number whose magnitude is the value
of the integer digits and whose sign is that of the literal: the literal truncated
toward zero. The bound is where the decimal Number of the model is the double of the
engine; for a literal such as `-0.5` the result is the negative zero, which JavaScript
compares equal to 0. -/
theorem C2_int_returns_integer_part (c : Constants) (n : Number) (program : Program)
    (sign ds frac : JSString) (hI : hasFlag c.INT n) (hA : ¬ hasFlag c.ARRAY n)
    (hs : sign = [] ∨ sign = ['+'] ∨ sign = ['-']) (hne : ds ≠ []) (hd : allDigits ds)
    (hf : frac = [] ∨ ∃ fs, frac = '.' :: fs ∧ allDigits fs)
    (_hb : decimalValue ds < 2 ^ 53) :
    validateFlags c n program (.string (sign ++ (ds ++ frac)))
      = .ok (.number (.fin (decide (sign = ['-'])) (decimalValue ds) 0)) := by
  have hf2 : frac = [] ∨ ∃ fs, frac = '.' :: fs := by
    rcases hf with hf | ⟨fs, hf, _⟩
    · exact Or.inl hf
    · exact Or.inr ⟨fs, hf⟩
  have hnum : Validator.isNumber (.string (sign ++ (ds ++ frac))) = true := by
    unfold Validator.isNumber
    rw [parseFloat_literal sign ds frac hs hne hd hf2]
    rfl
  rw [validateFlags_eq, validateWithFlags_leaf c _ n _ hA, validateLeaf_int c _ n _ hI,
    if_pos hnum, parseInt_literal sign ds frac hs hne hd hf2]

/-- Witness of C2: `"5"` gives 5, `"3.7"` gives 3 and `"-3.7"` gives -3 under INT = 1. -/
theorem C2_int_returns_integer_part_witness :
    validateFlags stdConstants (.fin false 1 0) freshProgram (.string "5".toList)
        = .ok (.number (.fin false 5 0))
    ∧ validateFlags stdConstants (.fin false 1 0) freshProgram (.string "3.7".toList)
        = .ok (.number (.fin false 3 0))
    ∧ validateFlags stdConstants (.fin false 1 0) freshProgram (.string "-3.7".toList)
        = .ok (.number (.fin true 3 0)) := by
  have hd5 : allDigits ['5'] := by intro c hc; simp at hc; subst hc; decide
  have hd3 : allDigits ['3'] := by intro c hc; simp at hc; subst hc; decide
  have hd7 : allDigits ['7'] := by intro c hc; simp at hc; subst hc; decide
  refine ⟨?_, ?_, ?_⟩
  · have h := C2_int_returns_integer_part stdConstants (.fin false 1 0) freshProgram
      [] ['5'] [] (by decide) (by decide) (Or.inl rfl) (by simp) hd5 (Or.inl rfl)
      (by simp [decimalValue])
    simpa [decimalValue] using h
  · have h := C2_int_returns_integer_part stdConstants (.fin false 1 0) freshProgram
      [] ['3'] ['.', '7'] (by decide) (by decide) (Or.inl rfl) (by simp) hd3
      (Or.inr ⟨['7'], rfl, hd7⟩) (by simp [decimalValue])
    simpa [decimalValue] using h
  · have h := C2_int_returns_integer_part stdConstants (.fin false 1 0) freshProgram
      ['-'] ['3'] ['.', '7'] (by decide) (by decide) (Or.inr (Or.inr rfl)) (by simp) hd3
      (Or.inr ⟨['7'], rfl, hd7⟩) (by simp [decimalValue])
    simpa [decimalValue] using h

/-! ## C3 and C4 -/

/-- C3: under a numeric validator with BOOL set and INT, FLOAT and ARRAY unset, a boolean
is returned unchanged; for any other value, `validate` throws the ValidationError
"Type (BOOL) validation failed" exactly when the stringified value is not, ignoring
letter case, one of `true`, `false`, `yes`, `no`, `0`, `1`, and returns a boolean
otherwise. -/
theorem C3_bool_check_decides_raise (c : Constants) (n : Number) (program : Program)
    (v : Value) (hB : hasFlag c.BOOL n) (hI : ¬ hasFlag c.INT n) (hF : ¬ hasFlag c.FLOAT n)
    (hA : ¬ hasFlag c.ARRAY n) :
    (∀ b, v = .boolean b → validateFlags c n program v = .ok (.boolean b))
    ∧ ((∀ b, v ≠ .boolean b) →
        (raisesValidation (validateFlags c n program v) "Type (BOOL) validation failed"
          ↔ ¬ isBoolToken (ToString v))
        ∧ (isBoolToken (ToString v) → ∃ b, validateFlags c n program v = .ok (.boolean b))) := by
  rw [validateFlags_eq, validateWithFlags_leaf c _ n v hA]
  constructor
  · intro b hb
    subst hb
    exact validateLeaf_bool_boolean c _ n b hI hF hB
  · intro hnb
    rw [validateLeaf_bool_other c _ n v hI hF hB hnb]
    by_cases ht : (boolRegExp.test (ToString v)).1 = true
    · have htok := (boolRegExp_test_iff _).1 ht
      rw [if_pos ht]
      refine ⟨⟨fun h => ?_, fun h => absurd htok h⟩, fun _ => ⟨_, rfl⟩⟩
      obtain ⟨e, he, _⟩ := h
      simp at he
    · have htok : ¬ isBoolToken (ToString v) := fun h => ht ((boolRegExp_test_iff _).2 h)
      rw [if_neg ht]
      exact ⟨⟨fun _ => htok, fun _ => ⟨_, rfl, rfl⟩⟩, fun h => absurd h htok⟩

/-- Witness of C3: with BOOL = 4, `"maybe"` throws, `"yes"` and `"0"` return, and
`true` is returned unchanged. -/
theorem C3_bool_check_witness :
    raisesValidation (validateFlags stdConstants (.fin false 4 0) freshProgram
        (.string "maybe".toList)) "Type (BOOL) validation failed"
    ∧ (∃ b, validateFlags stdConstants (.fin false 4 0) freshProgram (.string "yes".toList)
        = .ok (.boolean b))
    ∧ (∃ b, validateFlags stdConstants (.fin false 4 0) freshProgram (.string "0".toList)
        = .ok (.boolean b))
    ∧ validateFlags stdConstants (.fin false 4 0) freshProgram (.boolean true)
        = .ok (.boolean true) := by
  have hns : ∀ (s : JSString) (b : Bool), Value.string s ≠ Value.boolean b :=
    fun s b h => Value.noConfusion h
  refine ⟨?_, ?_, ?_, ?_⟩
  · exact ((C3_bool_check_decides_raise stdConstants (.fin false 4 0) freshProgram
      (.string "maybe".toList) (by decide) (by decide) (by decide) (by decide)).2 (hns _)).1.2
      (by rw [ToString_string]; unfold isBoolToken; decide)
  · exact ((C3_bool_check_decides_raise stdConstants (.fin false 4 0) freshProgram
      (.string "yes".toList) (by decide) (by decide) (by decide) (by decide)).2 (hns _)).2
      (by rw [ToString_string]; unfold isBoolToken; decide)
  · exact ((C3_bool_check_decides_raise stdConstants (.fin false 4 0) freshProgram
      (.string "0".toList) (by decide) (by decide) (by decide) (by decide)).2 (hns _)).2
      (by rw [ToString_string]; unfold isBoolToken; decide)
  · exact (C3_bool_check_decides_raise stdConstants (.fin false 4 0) freshProgram
      (.boolean true) (by decide) (by decide) (by decide) (by decide)).1 true rfl

/-- C4 (the code at the failing input): `"FALSE"` and `"No"` are accepted by the BOOL
check and equal `false` and `no` once case-folded, yet `validate` returns `true` for
them, because the comparison with the three false tokens is made on the value as
given; the number 0, whose string is `0`, gives `true` as well. The lower-case tokens
give `false`. -/
theorem C4_case_folded_false_tokens_give_true :
    isBoolToken "FALSE".toList ∧ "FALSE".toList.map Char.toLower = "false".toList
    ∧ validateFlags stdConstants (.fin false 4 0) freshProgram (.string "FALSE".toList)
        = .ok (.boolean true)
    ∧ "No".toList.map Char.toLower = "no".toList
    ∧ validateFlags stdConstants (.fin false 4 0) freshProgram (.string "No".toList)
        = .ok (.boolean true)
    ∧ ToString (.number (.fin false 0 0)) = "0".toList
    ∧ validateFlags stdConstants (.fin false 4 0) freshProgram (.number (.fin false 0 0))
        = .ok (.boolean true)
    ∧ validateFlags stdConstants (.fin false 4 0) freshProgram (.string "false".toList)
        = .ok (.boolean false)
    ∧ validateFlags stdConstants (.fin false 4 0) freshProgram (.string "no".toList)
        = .ok (.boolean false) := by
  refine ⟨?_, by decide, by rfl, by decide, by rfl, by rfl, by rfl, by rfl, by rfl⟩
  unfold isBoolToken
  decide

/-! ## C5 -/

/-- C5: under a numeric validator with ARRAY set, for an input that is a string (split
on commas: one more part than it has commas, the parts joined by commas give the string
back, no part holds a comma, and the empty string gives the single part `""`) or an
array, with `es` the resulting sequence: if `_validateWithFlags(el, true)` returns on
every element, `validate` returns the array of those results, of the same length and in
the same order; and if it throws `e` on an element while it returned on all elements
before it, `validate` throws that same `e`. -/
theorem C5_array_maps_unary_validation (c : Constants) (n : Number) (program : Program)
    (v : Value) (es : List Value) (hA : hasFlag c.ARRAY n)
    (hv : (∃ s, v = .string s ∧ es = (splitComma s).map Value.string) ∨ v = .array es) :
    ((∀ el ∈ es, returns
          (Validator._validateWithFlags c (flagValidator n program.ref) n el true)) →
        ∃ rs, validateFlags c n program v = .ok (.array rs) ∧ rs.length = es.length
          ∧ List.Forall₂ (fun el r =>
              Validator._validateWithFlags c (flagValidator n program.ref) n el true = .ok r)
              es rs)
    ∧ (∀ pre x post e, es = pre ++ x :: post →
        (∀ el ∈ pre, returns
          (Validator._validateWithFlags c (flagValidator n program.ref) n el true)) →
        Validator._validateWithFlags c (flagValidator n program.ref) n x true = .error e →
        validateFlags c n program v = .error e)
    ∧ (∀ s : JSString, (splitComma s).length = s.count ',' + 1
        ∧ [','].intercalate (splitComma s) = s ∧ ∀ part ∈ splitComma s, ',' ∉ part)
    ∧ splitComma [] = [[]] := by
  have hel : elementsOf v = some es := by
    rcases hv with ⟨s, rfl, rfl⟩ | rfl <;> rfl
  have hun : ∀ el, Validator._validateWithFlags c (flagValidator n program.ref) n el true
      = Validator.validateLeaf c (flagValidator n program.ref) n el :=
    fun el => validateWithFlags_unary c _ n el
  simp only [hun]
  rw [validateFlags_eq, validateWithFlags_array c _ n v es hA hel]
  refine ⟨fun hall => ?_, fun pre x post e hes hpre hx => ?_,
    fun s => ⟨splitComma_length s, splitComma_join s, splitComma_no_comma s⟩, rfl⟩
  · obtain ⟨rs, hrs, hf⟩ := mapThrowing_ok _ es hall
    refine ⟨rs, by rw [hrs], hf.length_eq.symm, hf⟩
  · rw [hes, mapThrowing_error _ pre post x e hpre hx]

/-- Witness of C5: under INT|ARRAY = 9, `"1,2,3"` gives `[1, 2, 3]` and `""` throws the
ValidationError "Type (INT) validation failed" of its single element `""`. -/
theorem C5_array_witness :
    validateFlags stdConstants (.fin false 9 0) freshProgram (.string "1,2,3".toList)
        = .ok (.array [.number (.fin false 1 0), .number (.fin false 2 0),
            .number (.fin false 3 0)])
    ∧ validateFlags stdConstants (.fin false 9 0) freshProgram (.string [])
        = .error (.validation
            { message := "Type (INT) validation failed"
              meta := { validator := none, value := some (.string []), originalError := none }
              program := 0 }) := by
  constructor
  · obtain ⟨rs, h, _, hf⟩ := (C5_array_maps_unary_validation stdConstants (.fin false 9 0)
      freshProgram (.string "1,2,3".toList)
      [.string ['1'], .string ['2'], .string ['3']] (by decide)
      (Or.inl ⟨_, rfl, by rfl⟩)).1
      (by
        intro el hel
        simp only [List.mem_cons, List.mem_singleton, List.not_mem_nil, or_false] at hel
        rcases hel with h | h | h <;> subst h <;> exact ⟨_, rfl⟩)
    rw [h]
    rcases hf with _ | ⟨h1, _ | ⟨h2, _ | ⟨h3, _ | _⟩⟩⟩
    have e1 : Except.ok (Value.number (.fin false 1 0)) = (Except.ok _ : Except JSError Value) := h1
    have e2 : Except.ok (Value.number (.fin false 2 0)) = (Except.ok _ : Except JSError Value) := h2
    have e3 : Except.ok (Value.number (.fin false 3 0)) = (Except.ok _ : Except JSError Value) := h3
    rw [← Except.ok.inj e1, ← Except.ok.inj e2, ← Except.ok.inj e3]
  · exact (C5_array_maps_unary_validation stdConstants (.fin false 9 0) freshProgram
      (.string []) [.string []] (by decide) (Or.inl ⟨_, rfl, by rfl⟩)).2.1
      [] (.string []) [] _ rfl (by simp) rfl

/-! ## C6 and C7 -/

/-- C6 (amended): for a function validator `f`, which `validate` calls as a method of the
instance: if `f(v)` returns `r` then `validate(v)` returns `r`; if `f(v)` throws `e`
then `validate(v)` throws the ValidationError "Function validation failed" whose context
holds the value `v`, `e` as the original error, and the validator that the instance
holds when `f` has thrown, with the program reference it holds then: these are `f`
itself and the program given at construction whenever `f` did not assign the fields of
the instance. What `f` threw never leaves `validate` as it is. -/
theorem C6_function_result_or_wrapped_error (c : Constants) (f : JSFun) (p : Nat) (v : Value)
    (program : Program) :
    (∀ r, (f v).outcome = .ok r →
        (Validator.validate c ⟨.function f, p⟩ v program).outcome = .ok r)
    ∧ (∀ e, (f v).outcome = .error e →
        (Validator.validate c ⟨.function f, p⟩ v program).outcome
          = .error (.validation
              { message := "Function validation failed"
                meta := { validator := some ((f v).setValidator.getD (.function f)),
                          value := some v,
                          originalError := some e }
                program := (f v).setProgram.getD p }))
    ∧ (∀ e, (f v).outcome = .error e → (f v).setValidator = none → (f v).setProgram = none →
        (Validator.validate c ⟨.function f, p⟩ v program).outcome
          = .error (.validation
              { message := "Function validation failed"
                meta := { validator := some (.function f), value := some v,
                          originalError := some e }
                program := p }))
    ∧ (∀ t, (Validator.validate c ⟨.function f, p⟩ v program).outcome ≠ .error (.thrown t)) := by
  have hv : (Validator.validate c ⟨.function f, p⟩ v program).outcome
      = Validator._validateWithFunction ⟨.function f, p⟩ f v := rfl
  rw [hv]
  unfold Validator._validateWithFunction Validator.afterFunction
  refine ⟨fun r hr => by rw [hr], fun e he => by rw [he], fun e he hsv hsp => ?_, fun t => ?_⟩
  · rw [he, hsv, hsp]
    rfl
  · cases (f v).outcome <;> simp

/-- Witness of C6: a function that throws the Error "boom" without touching the instance
has it wrapped with the function itself as validator, and the identity function has its
result returned. -/
theorem C6_function_witness :
    (Validator.validate stdConstants ⟨.function throwingFn, 0⟩
        (.string "x".toList) freshProgram).outcome
      = .error (.validation
          { message := "Function validation failed"
            meta := { validator := some (.function throwingFn),
                      value := some (.string "x".toList),
                      originalError := some (.error "boom".toList) }
            program := 0 })
    ∧ (Validator.validate stdConstants ⟨.function identityFn, 0⟩
        (.string "x".toList) freshProgram).outcome = .ok (.string "x".toList) :=
  ⟨(C6_function_result_or_wrapped_error stdConstants throwingFn 0 (.string "x".toList)
      freshProgram).2.2.1 _ rfl rfl rfl,
   (C6_function_result_or_wrapped_error stdConstants identityFn 0
      (.string "x".toList) freshProgram).1 _ rfl⟩

/-- C6 (counterexample): a function validator that assigns `/a/g` to `this._validator`
and then throws has its error wrapped in a ValidationError whose context holds `/a/g`
as validator, not the function. -/
theorem C6_context_holds_reassigned_validator :
    (Validator.validate stdConstants ⟨.function reassignThenThrow, 0⟩
        (.string "x".toList) freshProgram).outcome
      = .error (.validation
          { message := "Function validation failed"
            meta := { validator := some (.regExp globalA),
                      value := some (.string "x".toList),
                      originalError := some (.error "boom".toList) }
            program := 7 })
    ∧ some (Spec.regExp globalA) ≠ some (Spec.function reassignThenThrow) := by
  refine ⟨by rfl, fun h => ?_⟩
  cases h

/-- C7 (amended): for a regular expression that is not sticky and that is either not
global or has `lastIndex` 0, and for every value `v`: if the pattern matches the
stringified `v`, `validate(v)` returns `v` itself; otherwise it throws the
ValidationError "RegExp validation failed" whose context holds the validator and `v`. -/
theorem C7_regexp_returns_value_or_raises (c : Constants) (r : RegExp) (p : Nat) (v : Value)
    (program : Program) (hs : r.sticky = false) (hg : r.global = false ∨ r.lastIndex = 0) :
    (patternMatches r (ToString v) →
        (Validator.validate c ⟨.regExp r, p⟩ v program).outcome = .ok v)
    ∧ (¬ patternMatches r (ToString v) →
        (Validator.validate c ⟨.regExp r, p⟩ v program).outcome
          = .error (.validation
              { message := "RegExp validation failed"
                meta := { validator := some (.regExp r), value := some v,
                          originalError := none }
                program := p })) := by
  have hv : (Validator.validate c ⟨.regExp r, p⟩ v program).outcome
      = (Validator._validateWithRegExp ⟨.regExp r, p⟩ r v).1 := rfl
  rw [hv]
  unfold Validator._validateWithRegExp
  constructor
  · intro hm
    have ht := (test_iff_patternMatches r _ hs hg).2 hm
    simp [ht]
  · intro hm
    have ht : (r.test (ToString v)).1 = false := by
      cases hx : (r.test (ToString v)).1
      · rfl
      · exact absurd ((test_iff_patternMatches r _ hs hg).1 hx) hm
    simp [ht, test_snd_of_fail r _ hg hs ht]

/-- Witness of C7: with `/^[a-z]+$/`, `"abc"` is returned unchanged and `"a1"` throws. -/
theorem C7_regexp_witness :
    (Validator.validate stdConstants ⟨.regExp lowerWord, 0⟩ (.string "abc".toList)
        freshProgram).outcome = .ok (.string "abc".toList)
    ∧ (Validator.validate stdConstants ⟨.regExp lowerWord, 0⟩ (.string "a1".toList)
        freshProgram).outcome
      = .error (.validation
          { message := "RegExp validation failed"
            meta := { validator := some (.regExp lowerWord), value := some (.string "a1".toList),
                      originalError := none }
            program := 0 }) := by
  constructor
  · exact (C7_regexp_returns_value_or_raises stdConstants lowerWord 0 (.string "abc".toList)
      freshProgram rfl (Or.inl rfl)).1 ⟨0, by decide, by decide⟩
  · refine (C7_regexp_returns_value_or_raises stdConstants lowerWord 0 (.string "a1".toList)
      freshProgram rfl (Or.inl rfl)).2 ?_
    rintro ⟨j, _, hj⟩
    have : lowerWord.matcher (ToString (.string "a1".toList)) j = none := by
      rw [ToString_string]
      simp [lowerWord]
    rw [this] at hj
    exact absurd hj (by decide)

/-- C7 (counterexample): with the regular expression `/a/g`, whose pattern matches `"a"`,
a first `validate("a")` returns `"a"` and a second `validate("a")` on the same validator
throws "RegExp validation failed": `test` resumes at the `lastIndex` left by the first
call. -/
theorem C7_global_regexp_second_call_raises :
    patternMatches globalA (ToString (.string "a".toList))
    ∧ (Validator.validate stdConstants
        (Validator.constructor stdConstants (.regExp globalA) freshProgram).1
        (.string "a".toList) freshProgram).outcome = .ok (.string "a".toList)
    ∧ (Validator.validate stdConstants
        (Validator.validate stdConstants
          (Validator.constructor stdConstants (.regExp globalA) freshProgram).1
          (.string "a".toList) freshProgram).validator
        (.string "a".toList) freshProgram).outcome
      = .error (.validation
          { message := "RegExp validation failed"
            meta := { validator := some (.regExp globalA), value := some (.string "a".toList),
                      originalError := none }
            program := 0 }) := by
  refine ⟨⟨0, by decide, by decide⟩, by rfl, by rfl⟩

/-! ## C8, C9 and C10 -/

/-- C8: constructing a Validator on a numeric validator `n` returns the instance and calls
`program.fatalError` exactly once, with the ValidationError "Caporal setup error -
Invalid flag validator setup." whose context holds `n`, if and only if `n` shares no
bit with any flag constant (on the 32-bit patterns that `&` works on); otherwise the
program context is left as it was. In particular a nonzero combination of flag
constants (each below `2 ^ 32`) causes no fatal error, and the validator 0 causes one. -/
theorem C8_flag_setup_check (c : Constants) (n : Number) (program : Program) :
    (Validator.constructor c (.value (.number n)) program).1
        = { _validator := .value (.number n), _program := program.ref }
    ∧ ((Validator.constructor c (.value (.number n)) program).2.fatalCalls
          = program.fatalCalls
            ++ [FatalCall.byValidator (flagSetupError (.value (.number n)) program.ref)]
        ↔ ∀ k ∈ c.all, bitAnd k n = 0)
    ∧ ((Validator.constructor c (.value (.number n)) program).2 = program
        ↔ ¬ ∀ k ∈ c.all, bitAnd k n = 0)
    ∧ containsText (flagSetupError (.value (.number n)) program.ref).message
        "Invalid flag validator setup"
    ∧ (flagSetupError (.value (.number n)) program.ref).meta.validator
        = some (.value (.number n))
    ∧ (∀ ks : List Nat, (∀ k ∈ ks, k ∈ c.all) → (∀ k ∈ c.all, k < 2 ^ 32) →
        combineFlags ks ≠ 0 →
        (Validator.constructor c (flagSpec (combineFlags ks)) program).2 = program)
    ∧ (Validator.constructor c (flagSpec 0) program).2.fatalCalls
        = program.fatalCalls ++ [FatalCall.byValidator (flagSetupError (flagSpec 0) program.ref)] := by
  have hctor : ∀ m : Number, (Validator.constructor c (.value (.number m)) program).2
      = Validator._checkFlagValidator c ⟨.value (.number m), program.ref⟩ m program :=
    fun _ => rfl
  refine ⟨rfl, ?_, ?_, ⟨"Caporal setup error - ".toList, ".".toList, by rfl⟩, rfl, ?_, ?_⟩
  · rw [hctor]
    by_cases h : ∀ k ∈ c.all, bitAnd k n = 0
    · rw [checkFlag_invalid c _ n program h]
      exact ⟨fun _ => h, fun _ => rfl⟩
    · rw [checkFlag_valid c _ n program h]
      exact ⟨fun hx => absurd hx.symm (append_singleton_ne _ _), fun hx => absurd hx h⟩
  · rw [hctor]
    by_cases h : ∀ k ∈ c.all, bitAnd k n = 0
    · rw [checkFlag_invalid c _ n program h]
      refine ⟨fun hx => ?_, fun hx => absurd h hx⟩
      have := congrArg Program.fatalCalls hx
      exact absurd this (append_singleton_ne _ _)
    · rw [checkFlag_valid c _ n program h]
      exact ⟨fun _ => h, fun _ => rfl⟩
  · intro ks hsub hlt hnz
    obtain ⟨k, hk, hk0⟩ := combineFlags_ne_zero ks hnz
    unfold flagSpec
    rw [hctor]
    apply checkFlag_valid
    intro hall
    exact bitAnd_member_ne_zero ks k hk hk0 (hlt k (hsub k hk)) (hall k (hsub k hk))
  · unfold flagSpec
    rw [hctor, checkFlag_invalid]
    · rfl
    · intro k _
      simp [bitAnd, toUint32]

/-- Witness of C8: with the constants 1, 2, 4, 8, the validator INT|ARRAY = 1 ||| 8
is accepted and the validator 16 is reported. -/
theorem C8_flag_setup_witness :
    (Validator.constructor stdConstants (flagSpec (combineFlags [1, 8])) freshProgram).2
        = freshProgram
    ∧ (Validator.constructor stdConstants (.value (.number (.fin false 16 0)))
        freshProgram).2.fatalCalls
        = [FatalCall.byValidator (flagSetupError (.value (.number (.fin false 16 0))) 0)] :=
  ⟨(C8_flag_setup_check stdConstants (.fin false 0 0) freshProgram).2.2.2.2.2.1 [1, 8]
      (by decide) (by decide) (by decide),
   (C8_flag_setup_check stdConstants (.fin false 16 0) freshProgram).2.1.2 (by decide)⟩

/-- C9: constructing a Validator on a validator that is not a number returns the instance
and calls `program.fatalError` exactly once, with the ValidationError "Caporal setup
error - Invalid validator setup." whose context holds the validator, if and only if
the validator is neither a function nor a regular expression; for a function and for a
regular expression the program context is left as it was. -/
theorem C9_other_setup_check (c : Constants) (spec : Spec) (program : Program)
    (hn : spec.isNumber = false) :
    (Validator.constructor c spec program).1 = { _validator := spec, _program := program.ref }
    ∧ ((Validator.constructor c spec program).2.fatalCalls
          = program.fatalCalls ++ [FatalCall.byValidator (otherSetupError spec program.ref)]
        ↔ ¬ (spec.isFunction = true ∨ spec.isRegExp = true))
    ∧ ((Validator.constructor c spec program).2 = program
        ↔ (spec.isFunction = true ∨ spec.isRegExp = true))
    ∧ containsText (otherSetupError spec program.ref).message "Invalid validator setup"
    ∧ (otherSetupError spec program.ref).meta.validator = some spec := by
  refine ⟨?_, ?_, ?_, ⟨"Caporal setup error - ".toList, ".".toList, by rfl⟩, rfl⟩
  · cases spec with
    | function f => rfl
    | regExp r => rfl
    | value v => cases v <;> rfl
  · cases spec with
    | function f =>
      simp only [Spec.isFunction, true_or, not_true_eq_false, iff_false]
      exact fun h => append_singleton_ne _ _ h.symm
    | regExp r =>
      simp only [Spec.isRegExp, or_true, not_true_eq_false, iff_false]
      exact fun h => append_singleton_ne _ _ h.symm
    | value v =>
      cases v <;> first
        | (simp [Spec.isNumber] at hn; done)
        | (simp only [Spec.isFunction, Spec.isRegExp, Bool.false_eq_true, or_self,
            not_false_eq_true, iff_true]; rfl)
  · cases spec with
    | function f => simp only [Spec.isFunction, true_or, iff_true]; rfl
    | regExp r => simp only [Spec.isRegExp, or_true, iff_true]; rfl
    | value v =>
      cases v <;> first
        | (simp [Spec.isNumber] at hn; done)
        | (simp only [Spec.isFunction, Spec.isRegExp, Bool.false_eq_true, or_self, iff_false]
           intro h
           have := congrArg Program.fatalCalls h
           exact append_singleton_ne _ _ this)

/-- Witness of C9: a string given as validator is reported, a regular expression is not. -/
theorem C9_other_setup_witness :
    (Validator.constructor stdConstants (.value (.string "abc".toList)) freshProgram).2.fatalCalls
        = [FatalCall.byValidator (otherSetupError (.value (.string "abc".toList)) 0)]
    ∧ (Validator.constructor stdConstants (.regExp globalA) freshProgram).2 = freshProgram :=
  ⟨(C9_other_setup_check stdConstants (.value (.string "abc".toList)) freshProgram rfl).2.1.2
      (by decide),
   (C9_other_setup_check stdConstants (.regExp globalA) freshProgram rfl).2.2.1.2
      (Or.inr rfl)⟩

/-- C10 (amended): every ValidationError that `validate` throws holds the program
reference that the instance holds when the error is built (the one given at
construction, unless a function validator assigned `this._program`) and, in its
context, the offending value: the value given to `validate`, or under the ARRAY flag
the first element whose validation failed. The error of a function or of a regular
expression validator also holds the validator that the instance holds at that moment
(for a function validator the function itself, unless it assigned `this._validator`);
the error of a flag validator (INT, FLOAT or BOOL) holds no validator. -/
theorem C10_error_context (c : Constants) (this : Validator) (v : Value) (program : Program)
    (e : ValidationError)
    (h : (Validator.validate c this v program).outcome = .error (.validation e)) :
    e.program = (Validator.validate c this v program).validator._program
    ∧ (this._validator.isFunction = false → e.program = this._program)
    ∧ ((this._validator.isFunction = true ∨ this._validator.isRegExp = true) →
        e.meta.validator = some (Validator.validate c this v program).validator._validator
          ∧ e.meta.value = some v)
    ∧ (∀ f, this._validator = .function f → (f v).setValidator = none →
        (f v).setProgram = none →
        e.meta.validator = some (.function f) ∧ e.program = this._program)
    ∧ (∀ n, this._validator = .value (.number n) →
        e.meta.validator = none
        ∧ (¬ hasFlag c.ARRAY n → e.meta.value = some v)
        ∧ (hasFlag c.ARRAY n → ∃ es pre el post, elementsOf v = some es
            ∧ es = pre ++ el :: post
            ∧ (∀ y ∈ pre, returns (Validator._validateWithFlags c this n y true))
            ∧ Validator._validateWithFlags c this n el true = .error (.validation e)
            ∧ e.meta.value = some el)) := by
  obtain ⟨spec, p⟩ := this
  cases spec with
  | function f =>
    have hv : (Validator.validate c ⟨.function f, p⟩ v program).outcome
        = Validator._validateWithFunction ⟨.function f, p⟩ f v := rfl
    have hv2 : (Validator.validate c ⟨.function f, p⟩ v program).validator
        = Validator.afterFunction ⟨.function f, p⟩ f v := rfl
    rw [hv] at h
    rw [hv2]
    unfold Validator._validateWithFunction at h
    cases hf : (f v).outcome with
    | ok r => rw [hf] at h; simp at h
    | error t =>
      rw [hf] at h
      simp only [Except.error.injEq, JSError.validation.injEq] at h
      subst h
      refine ⟨rfl, fun hx => (by simp [Spec.isFunction] at hx), fun _ => ⟨rfl, rfl⟩,
        fun g hg hsv hsp => ?_, fun n hn => (by cases hn)⟩
      simp only [Spec.function.injEq] at hg
      subst hg
      simp [Validator.afterFunction, hsv, hsp]
  | regExp r =>
    have hv : (Validator.validate c ⟨.regExp r, p⟩ v program).outcome
        = (Validator._validateWithRegExp ⟨.regExp r, p⟩ r v).1 := rfl
    have hv2 : (Validator.validate c ⟨.regExp r, p⟩ v program).validator
        = ⟨.regExp (Validator._validateWithRegExp ⟨.regExp r, p⟩ r v).2, p⟩ := rfl
    rw [hv, validateWithRegExp_eq] at h
    rw [hv2, validateWithRegExp_eq]
    by_cases ht : (r.test (ToString v)).1 = true
    · rw [if_pos ht] at h
      simp at h
    · rw [if_neg ht] at h
      rw [if_neg ht]
      simp only [Except.error.injEq, JSError.validation.injEq] at h
      subst h
      exact ⟨rfl, fun _ => rfl, fun _ => ⟨rfl, rfl⟩, fun g hg => (by cases hg),
        fun n hn => (by cases hn)⟩
  | value w =>
    cases w with
    | number n =>
      have hv : (Validator.validate c ⟨.value (.number n), p⟩ v program).outcome
          = Validator._validateWithFlags c ⟨.value (.number n), p⟩ n v false := rfl
      rw [hv] at h
      obtain ⟨h1, h2, h3, h4⟩ := validateWithFlags_error_shape c _ n v e h
      refine ⟨h1, fun _ => h1, fun hx => ?_, fun g hg => (by cases hg), fun m hm => ?_⟩
      · simp [Spec.isFunction, Spec.isRegExp] at hx
      · simp only [Spec.value.injEq, Value.number.injEq] at hm
        subst hm
        exact ⟨h2, h3, h4⟩
    | undefined => simp [Validator.validate] at h
    | null => simp [Validator.validate] at h
    | boolean b => simp [Validator.validate] at h
    | string s => simp [Validator.validate] at h
    | array xs => simp [Validator.validate] at h

/-- Witness of C10: under INT|ARRAY = 9 the error thrown on `"1,x,3"` holds the element
`"x"`, the first one to fail; the error of a function that assigned `/a/g` and the
program reference 7 to the instance before throwing holds these two; the error of
`/^[a-z]+$/` on `"a1"` holds that expression and the program reference 0. -/
theorem C10_error_context_witness :
    (∃ es pre el post, elementsOf (.string "1,x,3".toList) = some es
        ∧ es = pre ++ el :: post
        ∧ (∀ y ∈ pre, returns
            (Validator._validateWithFlags stdConstants (flagValidator (.fin false 9 0) 0)
              (.fin false 9 0) y true))
        ∧ Validator._validateWithFlags stdConstants (flagValidator (.fin false 9 0) 0)
            (.fin false 9 0) el true
          = .error (.validation
              { message := "Type (INT) validation failed"
                meta := { validator := none, value := some (.string "x".toList),
                          originalError := none }
                program := 0 })
        ∧ some (Value.string "x".toList) = some el)
    ∧ (some (Spec.regExp globalA)
          = some (Validator.validate stdConstants ⟨.function reassignThenThrow, 0⟩
              (.string "x".toList) freshProgram).validator._validator
        ∧ (7 : Nat) = (Validator.validate stdConstants ⟨.function reassignThenThrow, 0⟩
              (.string "x".toList) freshProgram).validator._program)
    ∧ (some (Spec.regExp lowerWord)
          = some (Validator.validate stdConstants ⟨.regExp lowerWord, 0⟩
              (.string "a1".toList) freshProgram).validator._validator
        ∧ (0 : Nat) = (⟨.regExp lowerWord, 0⟩ : Validator)._program) :=
  ⟨((C10_error_context stdConstants (flagValidator (.fin false 9 0) 0)
      (.string "1,x,3".toList) freshProgram
      { message := "Type (INT) validation failed"
        meta := { validator := none, value := some (.string "x".toList),
                  originalError := none }
        program := 0 } (by rfl)).2.2.2.2 (.fin false 9 0) rfl).2.2 (by decide),
   ⟨((C10_error_context stdConstants ⟨.function reassignThenThrow, 0⟩
      (.string "x".toList) freshProgram
      { message := "Function validation failed"
        meta := { validator := some (.regExp globalA), value := some (.string "x".toList),
                  originalError := some (.error "boom".toList) }
        program := 7 } (by rfl)).2.2.1 (Or.inl rfl)).1,
    (C10_error_context stdConstants ⟨.function reassignThenThrow, 0⟩
      (.string "x".toList) freshProgram
      { message := "Function validation failed"
        meta := { validator := some (.regExp globalA), value := some (.string "x".toList),
                  originalError := some (.error "boom".toList) }
        program := 7 } (by rfl)).1⟩,
   ⟨((C10_error_context stdConstants ⟨.regExp lowerWord, 0⟩ (.string "a1".toList)
      freshProgram
      { message := "RegExp validation failed"
        meta := { validator := some (.regExp lowerWord), value := some (.string "a1".toList),
                  originalError := none }
        program := 0 } (by rfl)).2.2.1 (Or.inr rfl)).1,
    (C10_error_context stdConstants ⟨.regExp lowerWord, 0⟩ (.string "a1".toList)
      freshProgram
      { message := "RegExp validation failed"
        meta := { validator := some (.regExp lowerWord), value := some (.string "a1".toList),
                  originalError := none }
        program := 0 } (by rfl)).2.1 rfl⟩⟩

/-- C10 (counterexample): the ValidationError thrown for `"abc"` under INT holds the value
and the program reference but no validator. -/
theorem C10_flag_error_has_no_validator :
    validateFlags stdConstants (.fin false 1 0) freshProgram (.string "abc".toList)
      = .error (.validation
          { message := "Type (INT) validation failed"
            meta := { validator := none, value := some (.string "abc".toList),
                      originalError := none }
            program := 0 }) := by
  rfl

/-! ## C11, C14, C15 and C16 -/

theorem land_self_ne_zero (k : Nat) (h : k % 2 ^ 32 ≠ 0) :
    hasFlag k (flagAlone k) := by
  unfold hasFlag bitAnd flagAlone toUint32
  simpa using h

theorem hasFlag_flagAlone_iff (k j : Nat) :
    hasFlag k (flagAlone j) ↔ (k % 2 ^ 32) &&& (j % 2 ^ 32) ≠ 0 := by
  unfold hasFlag bitAnd flagAlone toUint32
  simp

theorem validateLeaf_int_congr (c : Constants) (n m : Number) (p : Nat) (v : Value)
    (hn : hasFlag c.INT n) (hm : hasFlag c.INT m) :
    Validator.validateLeaf c (flagValidator n p) n v
      = Validator.validateLeaf c (flagValidator m p) m v := by
  rw [validateLeaf_int c _ n v hn, validateLeaf_int c _ m v hm]
  rfl

theorem validateLeaf_float_congr (c : Constants) (n m : Number) (p : Nat) (v : Value)
    (hn : hasFlag c.FLOAT n) (hni : ¬ hasFlag c.INT n) (hm : hasFlag c.FLOAT m)
    (hmi : ¬ hasFlag c.INT m) :
    Validator.validateLeaf c (flagValidator n p) n v
      = Validator.validateLeaf c (flagValidator m p) m v := by
  rw [validateLeaf_float c _ n v hni hn, validateLeaf_float c _ m v hmi hm]
  rfl

/-- C11: with bit-disjoint flag constants, for every value `v` and every numeric validator
`m` without ARRAY: if `m` has INT set, `validate(v)` under `m` has the same outcome
(the same result or the same error) as under INT alone, whatever FLOAT and BOOL bits
`m` has; if `m` has FLOAT set and INT unset, the outcome is that under FLOAT alone,
whatever BOOL bit `m` has. -/
theorem C11_flag_precedence (c : Constants) (hc : c.bitDisjoint) (m : Number)
    (program : Program) (v : Value) (hA : ¬ hasFlag c.ARRAY m) :
    (hasFlag c.INT m →
        validateFlags c m program v = validateFlags c (flagAlone c.INT) program v)
    ∧ (hasFlag c.FLOAT m → ¬ hasFlag c.INT m →
        validateFlags c m program v = validateFlags c (flagAlone c.FLOAT) program v) := by
  obtain ⟨hI0, hF0, _, _, hIF, _, hIA, _, hFA, _⟩ := hc
  have hAI : ¬ hasFlag c.ARRAY (flagAlone c.INT) := by
    rw [hasFlag_flagAlone_iff, Nat.land_comm]
    exact fun h => h hIA
  have hAF : ¬ hasFlag c.ARRAY (flagAlone c.FLOAT) := by
    rw [hasFlag_flagAlone_iff, Nat.land_comm]
    exact fun h => h hFA
  have hIFn : ¬ hasFlag c.INT (flagAlone c.FLOAT) := by
    rw [hasFlag_flagAlone_iff]
    exact fun h => h hIF
  constructor
  · intro hI
    rw [validateFlags_eq, validateFlags_eq, validateWithFlags_leaf c _ m v hA,
      validateWithFlags_leaf c _ _ v hAI]
    exact validateLeaf_int_congr c m _ _ v hI (land_self_ne_zero _ hI0)
  · intro hF hI
    rw [validateFlags_eq, validateFlags_eq, validateWithFlags_leaf c _ m v hA,
      validateWithFlags_leaf c _ _ v hAF]
    exact validateLeaf_float_congr c m _ _ v hF hI (land_self_ne_zero _ hF0) hIFn

/-- Witness of C11: with the constants 1, 2, 4, 8, the validator INT|FLOAT|BOOL = 7
behaves as INT alone on `"3.7"`, and FLOAT|BOOL = 6 behaves as FLOAT alone. -/
theorem C11_flag_precedence_witness :
    validateFlags stdConstants (.fin false 7 0) freshProgram (.string "3.7".toList)
        = validateFlags stdConstants (flagAlone 1) freshProgram (.string "3.7".toList)
    ∧ validateFlags stdConstants (.fin false 6 0) freshProgram (.string "3.7".toList)
        = validateFlags stdConstants (flagAlone 2) freshProgram (.string "3.7".toList) :=
  ⟨(C11_flag_precedence stdConstants (by unfold Constants.bitDisjoint; decide)
      (.fin false 7 0) freshProgram (.string "3.7".toList) (by decide)).1 (by decide),
   (C11_flag_precedence stdConstants (by unfold Constants.bitDisjoint; decide)
      (.fin false 6 0) freshProgram (.string "3.7".toList) (by decide)).2 (by decide)
      (by decide)⟩

/-- C14: `validate` itself never calls `program.fatalError`: for every validator and every
value, if the validator is a function then under the assumption that this function
makes no call of `fatalError` on the value, and with no assumption for a regular
expression or a numeric validator, the program context after `validate` is the one
before it, whether `validate` returned or threw. -/
theorem C14_validate_makes_no_fatal_call (c : Constants) (this : Validator) (v : Value)
    (program : Program)
    (hf : ∀ f, this._validator = .function f → (f v).fatalCalls = []) :
    (Validator.validate c this v program).program = program
    ∧ (Validator.validate c this v program).program.fatalCalls = program.fatalCalls := by
  have h1 : (Validator.validate c this v program).program = program := by
    obtain ⟨spec, p⟩ := this
    cases spec with
    | function f =>
      have := hf f rfl
      simp [Validator.validate, this]
    | regExp r => rfl
    | value w => cases w <;> rfl
  exact ⟨h1, by rw [h1]⟩

/-- Witness of C14: a throwing function that makes no fatal call leaves the record empty. -/
theorem C14_no_fatal_call_witness :
    (Validator.validate stdConstants
        ⟨.function throwingFn, 0⟩
        (.string "x".toList) freshProgram).program.fatalCalls = [] :=
  (C14_validate_makes_no_fatal_call stdConstants
    ⟨.function throwingFn, 0⟩ (.string "x".toList)
    freshProgram (fun f hf => by
      simp only [Spec.function.injEq] at hf
      subst hf
      rfl)).2

theorem mapThrowing_const (es : List Value) :
    mapThrowing (fun _ => (Except.ok Value.undefined : Except JSError Value)) es
      = .ok (List.replicate es.length Value.undefined) := by
  induction es with
  | nil => rfl
  | cons x xs ih => simp [mapThrowing, ih, List.replicate_succ]

/-- C15: under a numeric validator with none of INT, FLOAT and BOOL set, validating a
value as a leaf (`_validateWithFlags(value, true)`) never throws and gives `undefined`;
so does `validate` when ARRAY is unset too; and when ARRAY is set, `validate` on a
string returns an array with one `undefined` per comma-separated part. -/
theorem C15_no_type_flag_gives_undefined (c : Constants) (n : Number) (program : Program)
    (hI : ¬ hasFlag c.INT n) (hF : ¬ hasFlag c.FLOAT n) (hB : ¬ hasFlag c.BOOL n) :
    (∀ v, Validator._validateWithFlags c (flagValidator n program.ref) n v true
        = .ok .undefined)
    ∧ (¬ hasFlag c.ARRAY n → ∀ v, validateFlags c n program v = .ok .undefined)
    ∧ (hasFlag c.ARRAY n → ∀ s : JSString,
        validateFlags c n program (.string s)
          = .ok (.array (List.replicate (splitComma s).length Value.undefined))
        ∧ (splitComma s).length = s.count ',' + 1) := by
  have hleaf : Validator.validateLeaf c (flagValidator n program.ref) n
      = fun _ => (Except.ok Value.undefined : Except JSError Value) :=
    funext fun v => validateLeaf_none c _ n v hI hF hB
  refine ⟨fun v => ?_, fun hA v => ?_, fun hA s => ⟨?_, splitComma_length s⟩⟩
  · rw [validateWithFlags_unary, hleaf]
  · rw [validateFlags_eq, validateWithFlags_leaf c _ n v hA, hleaf]
  · rw [validateFlags_eq,
      validateWithFlags_array c _ n (.string s) ((splitComma s).map Value.string) hA rfl,
      hleaf, mapThrowing_const]
    simp

/-- Witness of C15: under ARRAY = 8 alone, `"a,b"` gives two `undefined` elements. -/
theorem C15_no_type_flag_witness :
    validateFlags stdConstants (.fin false 8 0) freshProgram (.string "a,b".toList)
      = .ok (.array [.undefined, .undefined]) :=
  ((C15_no_type_flag_gives_undefined stdConstants (.fin false 8 0) freshProgram
    (by decide) (by decide) (by decide)).2.2 (by decide) "a,b".toList).1

theorem test_snd_same (r : RegExp) (s : JSString) :
    (r.test s).2.matcher = r.matcher ∧ (r.test s).2.global = r.global
    ∧ (r.test s).2.sticky = r.sticky := by
  unfold RegExp.test
  split <;> split_ifs <;> exact ⟨rfl, rfl, rfl⟩

/-- C16 (amended): for every validator that is a regular expression, a number or any other
value, and for every function validator whose function does not assign the fields of
the instance it is called on: after `validate(value)`, whether it returned or threw,
the instance holds the same program reference and the same validator object as before,
hence a validator of the same kind: the same function, the same number or other value,
or the same regular expression (same pattern and flags; only the `lastIndex` state
inside a global or sticky expression can have moved). -/
theorem C16_spec_fixed_by_validate (c : Constants) (this : Validator) (v : Value)
    (program : Program)
    (hf : ∀ f, this._validator = .function f →
      (f v).setValidator = none ∧ (f v).setProgram = none) :
    (Validator.validate c this v program).validator._program = this._program
    ∧ Spec.sameObject this._validator (Validator.validate c this v program).validator._validator
    ∧ (Validator.validate c this v program).validator._validator.kind = this._validator.kind
    ∧ (this._validator.isRegExp = false →
        (Validator.validate c this v program).validator = this) := by
  obtain ⟨spec, p⟩ := this
  cases spec with
  | function f =>
    obtain ⟨h1, h2⟩ := hf f rfl
    have hv : (Validator.validate c ⟨.function f, p⟩ v program).validator
        = ⟨.function f, p⟩ := by
      simp [Validator.validate, Validator.afterFunction, h1, h2]
    rw [hv]
    exact ⟨rfl, rfl, rfl, fun _ => rfl⟩
  | regExp r =>
    refine ⟨rfl, ?_, rfl, fun h => by simp [Spec.isRegExp] at h⟩
    have hv : (Validator.validate c ⟨.regExp r, p⟩ v program).validator._validator
        = .regExp (Validator._validateWithRegExp ⟨.regExp r, p⟩ r v).2 := rfl
    rw [hv, validateWithRegExp_eq]
    obtain ⟨h1, h2, h3⟩ := test_snd_same r (ToString v)
    split_ifs <;> exact ⟨h1.symm, h2.symm, h3.symm⟩
  | value w =>
    cases w <;> exact ⟨rfl, rfl, rfl, fun _ => rfl⟩

/-- Witness of C16: a validator built for INT = 1 is the same instance after
`validate("abc")` has thrown, and so is one built on a function that throws without
touching the instance. -/
theorem C16_spec_fixed_witness :
    (Validator.validate stdConstants (flagValidator (.fin false 1 0) 0)
        (.string "abc".toList) freshProgram).validator = flagValidator (.fin false 1 0) 0
    ∧ (Validator.validate stdConstants ⟨.function throwingFn, 0⟩
        (.string "abc".toList) freshProgram).validator = ⟨.function throwingFn, 0⟩ :=
  ⟨(C16_spec_fixed_by_validate stdConstants (flagValidator (.fin false 1 0) 0)
      (.string "abc".toList) freshProgram (fun f hf => by cases hf)).2.2.2 rfl,
   (C16_spec_fixed_by_validate stdConstants ⟨.function throwingFn, 0⟩
      (.string "abc".toList) freshProgram (fun f hf => by
        simp only [Spec.function.injEq] at hf
        subst hf
        exact ⟨rfl, rfl⟩)).2.2.2 rfl⟩

/-- C16 (counterexample): a function validator that assigns `/a/g` to `this._validator`
and returns leaves the instance with a regular expression: the stored validator was a
function (kind 0) before `validate("x")` and is a regular expression (kind 1) after. -/
theorem C16_function_can_replace_the_spec :
    (⟨.function reassignThenReturn, 0⟩ : Validator)._validator.kind = 0
    ∧ (Validator.validate stdConstants ⟨.function reassignThenReturn, 0⟩
        (.string "x".toList) freshProgram).outcome = .ok (.string "x".toList)
    ∧ (Validator.validate stdConstants ⟨.function reassignThenReturn, 0⟩
        (.string "x".toList) freshProgram).validator._validator.kind = 1
    ∧ (Validator.validate stdConstants ⟨.function reassignThenReturn, 0⟩
        (.string "x".toList) freshProgram).validator = ⟨.regExp globalA, 0⟩ := by
  refine ⟨by rfl, by rfl, by rfl, by rfl⟩

/-! ## Decimal digits of a number -/

theorem digitChar_isDigit (d : Nat) (h : d < 10) :
    isDecimalDigit (Nat.digitChar d) = true ∧ (Nat.digitChar d).toNat - 48 = d := by
  interval_cases d <;> decide

theorem decimalValue_cons (x : Char) (ds : JSString) :
    decimalValue (x :: ds) = (x.toNat - 48) * 10 ^ ds.length + decimalValue ds := by
  unfold decimalValue
  simp [Nat.ofDigits_append, Nat.ofDigits_singleton]
  ring

/-- The digits written by `digitsFuel`, with enough fuel: a nonempty run of decimal
digits in front of the accumulator, whose value is `n` and whose length is bounded by
any `k ≥ 1` with `n < 10 ^ k`. -/
theorem digitsFuel_spec (fuel n : Nat) (acc : List Char) (hn : n < fuel) :
    ∃ ds : List Char, digitsFuel fuel n acc = ds ++ acc ∧ ds ≠ [] ∧ allDigits ds
      ∧ decimalValue ds = n ∧ ∀ k, 1 ≤ k → n < 10 ^ k → ds.length ≤ k := by
  induction fuel generalizing n acc with
  | zero => omega
  | succ fuel ih =>
    unfold digitsFuel
    have hmod : n % 10 < 10 := Nat.mod_lt _ (by decide)
    obtain ⟨hdig, hval⟩ := digitChar_isDigit (n % 10) hmod
    by_cases h0 : n / 10 = 0
    · rw [if_pos h0]
      refine ⟨[Nat.digitChar (n % 10)], rfl, by simp, ?_, ?_, ?_⟩
      · intro x hx
        simp only [List.mem_singleton] at hx
        subst hx
        exact hdig
      · rw [decimalValue_cons]
        simp [decimalValue, hval]
        omega
      · intro k hk _
        simpa using hk
    · rw [if_neg h0]
      have hlt : n / 10 < fuel := by omega
      obtain ⟨ds, heq, hne, hall, hv, hlen⟩ := ih (n / 10) (Nat.digitChar (n % 10) :: acc) hlt
      refine ⟨ds ++ [Nat.digitChar (n % 10)], by rw [heq]; simp, by simp, ?_, ?_, ?_⟩
      · intro x hx
        simp only [List.mem_append, List.mem_singleton] at hx
        rcases hx with hx | hx
        · exact hall x hx
        · subst hx; exact hdig
      · unfold decimalValue at hv ⊢
        simp only [List.reverse_append, List.reverse_singleton, List.singleton_append,
          List.map_cons, Nat.ofDigits_cons, hval, hv]
        omega
      · intro k hk hnk
        have hk2 : 2 ≤ k := by
          by_contra hk1
          have : k = 1 := by omega
          subst this
          omega
        have : n / 10 < 10 ^ (k - 1) := by
          have h10 : 10 ^ k = 10 ^ (k - 1) * 10 := by
            rw [← pow_succ]; congr 1; omega
          rw [h10] at hnk
          exact Nat.div_lt_of_lt_mul (by rw [Nat.mul_comm]; exact hnk)
        have := hlen (k - 1) (by omega) this
        simp only [List.length_append, List.length_singleton]
        omega

theorem natDigits_spec (n : Nat) :
    natDigits n ≠ [] ∧ allDigits (natDigits n) ∧ decimalValue (natDigits n) = n
    ∧ ∀ k, 1 ≤ k → n < 10 ^ k → (natDigits n).length ≤ k := by
  obtain ⟨ds, heq, hne, hall, hv, hlen⟩ := digitsFuel_spec (n + 1) n [] (Nat.lt_succ_self n)
  unfold natDigits
  rw [heq, List.append_nil]
  exact ⟨hne, hall, hv, hlen⟩

theorem stripTrailingZeros_append (ds : List Char) :
    stripTrailingZeros ds ++ List.replicate (ds.length - (stripTrailingZeros ds).length) '0'
      = ds := by
  unfold stripTrailingZeros
  have hsplit := List.takeWhile_append_dropWhile (fun c => c == '0') ds.reverse
  have hzero : ∀ x ∈ ds.reverse.takeWhile (fun c => c == '0'), x = '0' := by
    intro x hx
    have := List.mem_takeWhile_imp hx
    simpa using this
  have hrep : ds.reverse.takeWhile (fun c => c == '0')
      = List.replicate (ds.reverse.takeWhile (fun c => c == '0')).length '0' :=
    List.eq_replicate_of_mem hzero
  have hlen : ds.length = (ds.reverse.takeWhile (fun c => c == '0')).length
      + (ds.reverse.dropWhile (fun c => c == '0')).length := by
    have := congrArg List.length hsplit
    simp only [List.length_append, List.length_reverse] at this
    omega
  have hds : ds = (ds.reverse.dropWhile (fun c => c == '0')).reverse
      ++ (ds.reverse.takeWhile (fun c => c == '0')).reverse := by
    rw [← List.reverse_append, hsplit, List.reverse_reverse]
  rw [List.length_reverse]
  have hk : ds.length - (ds.reverse.dropWhile (fun c => c == '0')).length
      = (ds.reverse.takeWhile (fun c => c == '0')).length := by omega
  rw [hk]
  conv_rhs => rw [hds, hrep, List.reverse_replicate]

theorem stripTrailingZeros_length_le (ds : List Char) :
    (stripTrailingZeros ds).length ≤ ds.length := by
  have := congrArg List.length (stripTrailingZeros_append ds)
  simp only [List.length_append, List.length_replicate] at this
  omega

theorem formatFinite_integer (m : Nat) (h : m < 10 ^ 21) : formatFinite m 0 = natDigits m := by
  obtain ⟨_, _, _, hlen⟩ := natDigits_spec m
  have h21 := hlen 21 (by decide) h
  have hle := stripTrailingZeros_length_le (natDigits m)
  unfold formatFinite
  simp only [Nat.cast_zero, sub_zero]
  rw [if_pos ⟨by exact_mod_cast hle, by exact_mod_cast h21⟩]
  have : ((natDigits m).length - (stripTrailingZeros (natDigits m)).length : Int).toNat
      = (natDigits m).length - (stripTrailingZeros (natDigits m)).length := by
    omega
  rw [this]
  exact stripTrailingZeros_append _

/-! ## C12 -/

theorem parseInt_shape (v : Value) :
    parseInt v = .nan ∨ ∃ neg m, parseInt v = .fin neg m 0 := by
  unfold parseInt
  simp only
  split_ifs
  · exact Or.inl rfl
  · exact Or.inr ⟨_, _, rfl⟩

theorem ToString_number (x : Number) : ToString (.number x) = x.toStr := by
  simp [ToString]

theorem validate_int_of_integer (c : Constants) (n : Number) (program : Program)
    (hI : hasFlag c.INT n) (hA : ¬ hasFlag c.ARRAY n) (neg : Bool) (m : Nat)
    (hm : m < 10 ^ 21) :
    validateFlags c n program (.number (.fin neg m 0))
      = .ok (.number (.fin (neg && decide (m ≠ 0)) m 0)) := by
  rw [validateFlags_eq, validateWithFlags_leaf c _ n _ hA, validateLeaf_int c _ n _ hI]
  obtain ⟨hne, hall, hval, _⟩ := natDigits_spec m
  have hstr : ∃ sign : JSString, (sign = [] ∨ sign = ['+'] ∨ sign = ['-'])
      ∧ decide (sign = ['-']) = (neg && decide (m ≠ 0))
      ∧ Number.toStr (.fin neg m 0) = sign ++ (natDigits m ++ []) := by
    by_cases h0 : m = 0
    · subst h0
      exact ⟨[], Or.inl rfl, by simp, by rfl⟩
    · cases neg
      · refine ⟨[], Or.inl rfl, by simp, ?_⟩
        simp [Number.toStr, h0, formatFinite_integer m hm]
      · refine ⟨['-'], Or.inr (Or.inr rfl), by simp [h0], ?_⟩
        simp [Number.toStr, h0, formatFinite_integer m hm]
  obtain ⟨sign, hs, hneg, htoStr⟩ := hstr
  have hnum : Validator.isNumber (.number (.fin neg m 0)) = true := by
    unfold Validator.isNumber
    have := parseFloat_literal sign (natDigits m) [] hs hne hall (Or.inl rfl)
    unfold parseFloat at this ⊢
    rw [ToString_number, htoStr]
    rw [ToString_string] at this
    rw [this]
    rfl
  have hint : parseInt (.number (.fin neg m 0)) = .fin (neg && decide (m ≠ 0)) m 0 := by
    have := parseInt_literal sign (natDigits m) [] hs hne hall (Or.inl rfl)
    unfold parseInt at this ⊢
    rw [ToString_number, htoStr]
    rw [ToString_string] at this
    rw [this, hval, hneg]
  rw [if_pos hnum, hint]

theorem validate_int_result (c : Constants) (n : Number) (program : Program) (v r : Value)
    (hI : hasFlag c.INT n) (hA : ¬ hasFlag c.ARRAY n)
    (h : validateFlags c n program v = .ok r) : r = .number (parseInt v) := by
  rw [validateFlags_eq, validateWithFlags_leaf c _ n v hA, validateLeaf_int c _ n v hI] at h
  split_ifs at h
  simp only [Except.ok.injEq] at h
  exact h.symm

theorem validate_bool_result (c : Constants) (n : Number) (program : Program) (v r : Value)
    (hB : hasFlag c.BOOL n) (hI : ¬ hasFlag c.INT n) (hF : ¬ hasFlag c.FLOAT n)
    (hA : ¬ hasFlag c.ARRAY n) (h : validateFlags c n program v = .ok r) :
    ∃ b, r = .boolean b := by
  rw [validateFlags_eq, validateWithFlags_leaf c _ n v hA] at h
  by_cases hv : ∀ b, v ≠ .boolean b
  · rw [validateLeaf_bool_other c _ n v hI hF hB hv] at h
    split_ifs at h
    simp only [Except.ok.injEq] at h
    exact ⟨_, h.symm⟩
  · simp only [ne_eq, not_forall, not_not] at hv
    obtain ⟨b, hb⟩ := hv
    subst hb
    rw [validateLeaf_bool_boolean c _ n b hI hF hB] at h
    simp only [Except.ok.injEq] at h
    exact ⟨b, h.symm⟩

/-- C12 (amended): if `validate(v)` under a numeric validator without ARRAY returns `r`,
then: with INT set, provided `r` is not NaN and its magnitude is below `2 ^ 53`,
`validate(r)` returns a Number that is `===` to `r`; with BOOL set and INT and FLOAT
unset, `validate(r)` returns `r`. The bound `2 ^ 53` is where the integers of the model
are the doubles of the engine, so that `r` is a value the code returns and its string
is the one the code parses again. -/
theorem C12_revalidation_returns_equal_value (c : Constants) (n : Number) (program : Program)
    (v r : Value) (hA : ¬ hasFlag c.ARRAY n) (h : validateFlags c n program v = .ok r) :
    (hasFlag c.INT n → r ≠ .number .nan →
        (∀ neg m e, r = .number (.fin neg m e) → m < 2 ^ 53 * 10 ^ e) →
        ∃ x y, r = .number x ∧ validateFlags c n program r = .ok (.number y)
          ∧ Number.strictEquals y x = true)
    ∧ (hasFlag c.BOOL n → ¬ hasFlag c.INT n → ¬ hasFlag c.FLOAT n →
        validateFlags c n program r = .ok r) := by
  constructor
  · intro hI hnan hbound
    have hr := validate_int_result c n program v r hI hA h
    rcases parseInt_shape v with hp | ⟨neg, m, hp⟩
    · rw [hp] at hr
      exact absurd hr hnan
    · rw [hp] at hr
      have hm53 : m < 2 ^ 53 := by simpa using hbound neg m 0 hr
      have hm : m < 10 ^ 21 := lt_trans hm53 (by decide)
      refine ⟨.fin neg m 0, .fin (neg && decide (m ≠ 0)) m 0, hr, ?_, ?_⟩
      · rw [hr]
        exact validate_int_of_integer c n program hI hA neg m hm
      · unfold Number.strictEquals
        by_cases h0 : m = 0 <;> cases neg <;> simp [h0]
  · intro hB hI hF
    obtain ⟨b, hb⟩ := validate_bool_result c n program v r hB hI hF hA h
    subst hb
    rw [validateFlags_eq, validateWithFlags_leaf c _ n _ hA]
    exact validateLeaf_bool_boolean c _ n b hI hF hB

/-- Witness of C12: 5, the result of `validate("5")` under INT = 1, validates to a Number
equal to 5, and `true` under BOOL = 4 validates to `true`. -/
theorem C12_revalidation_witness :
    (∃ x y, Value.number (.fin false 5 0) = .number x
        ∧ validateFlags stdConstants (.fin false 1 0) freshProgram (.number (.fin false 5 0))
            = .ok (.number y)
        ∧ Number.strictEquals y x = true)
    ∧ validateFlags stdConstants (.fin false 4 0) freshProgram (.boolean true)
        = .ok (.boolean true) :=
  ⟨(C12_revalidation_returns_equal_value stdConstants (.fin false 1 0) freshProgram
      (.string "5".toList) (.number (.fin false 5 0)) (by decide) (by rfl)).1 (by decide)
      (by intro h; cases h)
      (by
        intro neg m e h
        simp only [Value.number.injEq, Number.fin.injEq] at h
        obtain ⟨_, hm, he⟩ := h
        subst hm
        subst he
        decide),
   (C12_revalidation_returns_equal_value stdConstants (.fin false 4 0) freshProgram
      (.boolean true) (.boolean true) (by decide) (by rfl)).2 (by decide) (by decide)
      (by decide)⟩

/-- C12 (counterexample): under INT, `validate("1000000000000000000000")` returns
`10 ^ 21` (a double holds this integer exactly), and validating that Number again
returns 1, because its string is `1e+21`; and `validate(".5")` returns NaN, and
validating NaN again throws. -/
theorem C12_int_revalidation_differs :
    validateFlags stdConstants (.fin false 1 0) freshProgram
        (.string "1000000000000000000000".toList) = .ok (.number (.fin false (10 ^ 21) 0))
    ∧ ToString (.number (.fin false (10 ^ 21) 0)) = "1e+21".toList
    ∧ validateFlags stdConstants (.fin false 1 0) freshProgram
        (.number (.fin false (10 ^ 21) 0)) = .ok (.number (.fin false 1 0))
    ∧ Number.strictEquals (.fin false 1 0) (.fin false (10 ^ 21) 0) = false
    ∧ validateFlags stdConstants (.fin false 1 0) freshProgram (.string ".5".toList)
        = .ok (.number .nan)
    ∧ raisesValidation (validateFlags stdConstants (.fin false 1 0) freshProgram
        (.number .nan)) "Type (INT) validation failed" := by
  refine ⟨by rfl, by rfl, by rfl, by decide, by rfl, ⟨_, by rfl, rfl⟩⟩

/-! ## C13, C17, C18 and C19 -/

theorem takeWhile_digits_stop (ds suffix : JSString) (h : allDigits ds)
    (hs : ∀ x r, suffix = x :: r → isDecimalDigit x = false) :
    (ds ++ suffix).takeWhile isDecimalDigit = ds := by
  induction ds with
  | nil =>
    cases suffix with
    | nil => rfl
    | cons x r => simp [List.takeWhile, hs x r rfl]
  | cons d ds ih =>
    have hd : isDecimalDigit d = true := h d (List.mem_cons_self _ _)
    have ih2 := ih (fun c hc => h c (List.mem_cons_of_mem _ hc))
    simp [List.takeWhile, hd, ih2]

theorem parseFloat_digit_run (ds suffix : JSString) (hne : ds ≠ []) (h : allDigits ds)
    (hs : ∀ x r, suffix = x :: r → isDecimalDigit x = false) :
    (parseFloat (.string (ds ++ suffix))).isNaN = false := by
  have htw := takeWhile_digits_stop ds suffix h hs
  obtain ⟨d, ds', rfl⟩ := List.exists_cons_of_ne_nil hne
  have hd : isDecimalDigit d = true := h d (by simp)
  have hsplit : splitSign (trimStart (ToString (.string (d :: ds' ++ suffix))))
      = (false, d :: ds' ++ suffix) := by
    rw [ToString_string]
    simp only [List.cons_append]
    rw [trimStart_digit d _ hd, splitSign_digit d _ hd]
  have hinf : "Infinity".toList.isPrefixOf (d :: ds' ++ suffix) = false := by
    rw [isDecimalDigit_iff] at hd
    have : ¬ ('I' = d) := by
      intro he; rw [← he] at hd; simp at hd
    simp [List.isPrefixOf, this]
  unfold parseFloat
  rw [hsplit]
  simp only [hinf, htw]
  simp [ofDecimal_isNaN]

theorem parseInt_digit_run (ds suffix : JSString) (hne : ds ≠ []) (h : allDigits ds)
    (hs : ∀ x r, suffix = x :: r → isDecimalDigit x = false)
    (hx : ∀ r, ds ++ suffix ≠ '0' :: 'x' :: r ∧ ds ++ suffix ≠ '0' :: 'X' :: r) :
    parseInt (.string (ds ++ suffix)) = .fin false (decimalValue ds) 0 := by
  have htw : (ds ++ suffix).takeWhile (fun c => (radixDigitValue 10 c).isSome) = ds := by
    have hfun : (fun c => (radixDigitValue 10 c).isSome) = isDecimalDigit := funext radixDigit_ten
    rw [hfun]
    exact takeWhile_digits_stop ds suffix h hs
  have hm : radixMarker (ds ++ suffix) = (10, ds ++ suffix) := by
    unfold radixMarker
    split
    · rename_i r heq
      exact absurd heq (hx r).1
    · rename_i r heq
      exact absurd heq (hx r).2
    · rfl
  obtain ⟨d, ds', rfl⟩ := List.exists_cons_of_ne_nil hne
  have hd : isDecimalDigit d = true := h d (by simp)
  have hsplit : splitSign (trimStart (ToString (.string (d :: ds' ++ suffix))))
      = (false, d :: ds' ++ suffix) := by
    rw [ToString_string]
    simp only [List.cons_append]
    rw [trimStart_digit d _ hd, splitSign_digit d _ hd]
  unfold parseInt
  rw [hsplit]
  simp only [hm, htw]
  rw [if_neg (by simp), digitsToNat_eq_decimalValue _ h]

/-- C13 (amended): for a string made of one or more decimal digits followed by a suffix
that does not begin with a decimal digit, that does not start with the hexadecimal
marker `0x` or `0X`, and whose digit run has a value below `2 ^ 53`, `validate` under a
numeric validator with INT set (and ARRAY unset) does not throw and returns the
base-10 value of the digit run. -/
theorem C13_numeric_prefix_leniency (c : Constants) (n : Number) (program : Program)
    (ds suffix : JSString) (hI : hasFlag c.INT n) (hA : ¬ hasFlag c.ARRAY n)
    (hne : ds ≠ []) (hd : allDigits ds)
    (hs : ∀ x r, suffix = x :: r → isDecimalDigit x = false)
    (hx : ∀ r, ds ++ suffix ≠ '0' :: 'x' :: r ∧ ds ++ suffix ≠ '0' :: 'X' :: r)
    (_hb : decimalValue ds < 2 ^ 53) :
    validateFlags c n program (.string (ds ++ suffix))
      = .ok (.number (.fin false (decimalValue ds) 0)) := by
  have hnum : Validator.isNumber (.string (ds ++ suffix)) = true := by
    unfold Validator.isNumber
    rw [parseFloat_digit_run ds suffix hne hd hs]
    rfl
  rw [validateFlags_eq, validateWithFlags_leaf c _ n _ hA, validateLeaf_int c _ n _ hI,
    if_pos hnum, parseInt_digit_run ds suffix hne hd hs hx]

/-- Witness of C13: `"42abc"` gives 42 under INT = 1. -/
theorem C13_numeric_prefix_witness :
    validateFlags stdConstants (.fin false 1 0) freshProgram (.string "42abc".toList)
      = .ok (.number (.fin false 42 0)) := by
  have hd : allDigits ['4', '2'] := by
    intro c hc
    simp only [List.mem_cons, List.mem_singleton, List.not_mem_nil, or_false] at hc
    rcases hc with h | h <;> subst h <;> decide
  have h := C13_numeric_prefix_leniency stdConstants (.fin false 1 0) freshProgram
    ['4', '2'] ['a', 'b', 'c'] (by decide) (by decide) (by simp) hd
    (by
      intro x r hxr
      simp only [List.cons.injEq] at hxr
      rw [← hxr.1]
      decide)
    (by intro r; constructor <;> simp)
    (by simp [decimalValue, Nat.ofDigits_cons])
  simpa [decimalValue, Nat.ofDigits_cons] using h

/-- C13 (counterexample): `"0x10"` is the digit `0` followed by the suffix `x10`, which
does not begin with a digit; the value of the digit run is 0, yet `validate` under INT
returns 16, because `parseInt` reads the hexadecimal marker. -/
theorem C13_hex_marker_is_read :
    allDigits ['0'] ∧ isDecimalDigit 'x' = false ∧ decimalValue ['0'] = 0
    ∧ ['0'] ++ "x10".toList = "0x10".toList
    ∧ validateFlags stdConstants (.fin false 1 0) freshProgram (.string "0x10".toList)
        = .ok (.number (.fin false 16 0)) := by
  refine ⟨?_, by decide, by simp [decimalValue], by rfl, by rfl⟩
  intro c hc
  simp only [List.mem_singleton] at hc
  subst hc
  decide

/-- C17 (the code at the failing input): `".5"` and `"Infinity"` pass the check
`Validator.isNumber`, which uses `parseFloat`, and `validate` under INT returns
`parseInt` of them, which is NaN. -/
theorem C17_int_validation_returns_nan :
    Validator.isNumber (.string ".5".toList) = true
    ∧ parseFloat (.string ".5".toList) = .fin false 5 1
    ∧ validateFlags stdConstants (.fin false 1 0) freshProgram (.string ".5".toList)
        = .ok (.number .nan)
    ∧ Validator.isNumber (.string "Infinity".toList) = true
    ∧ validateFlags stdConstants (.fin false 1 0) freshProgram (.string "Infinity".toList)
        = .ok (.number .nan) := by
  refine ⟨by rfl, by rfl, by rfl, by rfl, by rfl⟩

/-- C18 (the code at the failing input): with the ARRAY flag set, `validate(true)` ends in
the TypeError of calling `map` on a boolean, for BOOL|ARRAY = 12 as for INT|ARRAY = 9;
it neither returns nor throws a ValidationError. -/
theorem C18_array_flag_on_boolean_is_type_error :
    validateFlags stdConstants (.fin false 12 0) freshProgram (.boolean true)
        = .error (.typeError "value.map is not a function")
    ∧ validateFlags stdConstants (.fin false 9 0) freshProgram (.boolean false)
        = .error (.typeError "value.map is not a function") := by
  refine ⟨by rfl, by rfl⟩

theorem test_snd_plain (r : RegExp) (s : JSString) (hg : r.global = false)
    (hs : r.sticky = false) : (r.test s).2 = r := by
  unfold RegExp.test
  split <;> simp [hg, hs]

theorem validate_state_unchanged (c : Constants) (this : Validator) (v : Value)
    (program : Program) (hfun : this._validator.isFunction = false)
    (hre : ∀ r, this._validator = .regExp r → r.global = false ∧ r.sticky = false) :
    (Validator.validate c this v program).validator = this
    ∧ (Validator.validate c this v program).program = program := by
  obtain ⟨spec, p⟩ := this
  cases spec with
  | function f => simp [Spec.isFunction] at hfun
  | regExp r =>
    obtain ⟨hg, hs⟩ := hre r rfl
    have hv : (Validator.validate c ⟨.regExp r, p⟩ v program).validator
        = ⟨.regExp (Validator._validateWithRegExp ⟨.regExp r, p⟩ r v).2, p⟩ := rfl
    refine ⟨?_, rfl⟩
    rw [hv, validateWithRegExp_eq]
    split_ifs <;> simp [test_snd_plain r _ hg hs]
  | value w => cases w <;> exact ⟨rfl, rfl⟩

theorem afterCalls_unchanged (c : Constants) (this : Validator) (program : Program)
    (ws : List Value) (hfun : this._validator.isFunction = false)
    (hre : ∀ r, this._validator = .regExp r → r.global = false ∧ r.sticky = false) :
    Validator.afterCalls c this program ws = (this, program) := by
  induction ws with
  | nil => rfl
  | cons w ws ih =>
    unfold Validator.afterCalls
    obtain ⟨h1, h2⟩ := validate_state_unchanged c this w program hfun hre
    rw [h1, h2]
    exact ih

/-- C19 (amended): for a validator that is not a function and, if it is a regular
expression, has neither the global nor the sticky flag, and for every value `v`:
whatever `validate` calls were made before, two successive `validate(v)` calls have the
same outcome, which is the outcome on the validator as constructed. -/
theorem C19_validate_is_deterministic (c : Constants) (this : Validator) (program : Program)
    (ws : List Value) (v : Value) (hfun : this._validator.isFunction = false)
    (hre : ∀ r, this._validator = .regExp r → r.global = false ∧ r.sticky = false) :
    (Validator.validate c
        (Validator.validate c (Validator.afterCalls c this program ws).1 v
          (Validator.afterCalls c this program ws).2).validator v
        (Validator.validate c (Validator.afterCalls c this program ws).1 v
          (Validator.afterCalls c this program ws).2).program).outcome
      = (Validator.validate c (Validator.afterCalls c this program ws).1 v
          (Validator.afterCalls c this program ws).2).outcome
    ∧ (Validator.validate c (Validator.afterCalls c this program ws).1 v
          (Validator.afterCalls c this program ws).2).outcome
      = (Validator.validate c this v program).outcome := by
  rw [afterCalls_unchanged c this program ws hfun hre]
  obtain ⟨h1, h2⟩ := validate_state_unchanged c this v program hfun hre
  simp only [h1, h2, and_self]

/-- Witness of C19: with `/^[a-z]+$/`, after validating `"x1"` and `"y"`, two successive
`validate("abc")` calls both give what the first call on the fresh validator gives. -/
theorem C19_determinism_witness :
    (Validator.validate stdConstants
        (Validator.validate stdConstants
          (Validator.afterCalls stdConstants ⟨.regExp lowerWord, 0⟩ freshProgram
            [.string "x1".toList, .string "y".toList]).1 (.string "abc".toList)
          (Validator.afterCalls stdConstants ⟨.regExp lowerWord, 0⟩ freshProgram
            [.string "x1".toList, .string "y".toList]).2).validator (.string "abc".toList)
        (Validator.validate stdConstants
          (Validator.afterCalls stdConstants ⟨.regExp lowerWord, 0⟩ freshProgram
            [.string "x1".toList, .string "y".toList]).1 (.string "abc".toList)
          (Validator.afterCalls stdConstants ⟨.regExp lowerWord, 0⟩ freshProgram
            [.string "x1".toList, .string "y".toList]).2).program).outcome
      = (Validator.validate stdConstants
          (Validator.afterCalls stdConstants ⟨.regExp lowerWord, 0⟩ freshProgram
            [.string "x1".toList, .string "y".toList]).1 (.string "abc".toList)
          (Validator.afterCalls stdConstants ⟨.regExp lowerWord, 0⟩ freshProgram
            [.string "x1".toList, .string "y".toList]).2).outcome :=
  (C19_validate_is_deterministic stdConstants ⟨.regExp lowerWord, 0⟩ freshProgram
    [.string "x1".toList, .string "y".toList] (.string "abc".toList) rfl
    (fun r hr => by
      simp only [Spec.regExp.injEq] at hr
      subst hr
      exact ⟨rfl, rfl⟩)).1

/-- C19 (counterexample): on a validator built with `/a/g`, and on one built with `/a/y`,
two successive `validate("a")` calls differ: the first returns `"a"` and the second
throws "RegExp validation failed". -/
theorem C19_successive_calls_differ :
    (Validator.validate stdConstants ⟨.regExp globalA, 0⟩ (.string "a".toList)
        freshProgram).outcome = .ok (.string "a".toList)
    ∧ raisesValidation
        (Validator.validate stdConstants
          (Validator.validate stdConstants ⟨.regExp globalA, 0⟩ (.string "a".toList)
            freshProgram).validator (.string "a".toList) freshProgram).outcome
        "RegExp validation failed"
    ∧ (Validator.validate stdConstants ⟨.regExp stickyA, 0⟩ (.string "a".toList)
        freshProgram).outcome = .ok (.string "a".toList)
    ∧ raisesValidation
        (Validator.validate stdConstants
          (Validator.validate stdConstants ⟨.regExp stickyA, 0⟩ (.string "a".toList)
            freshProgram).validator (.string "a".toList) freshProgram).outcome
        "RegExp validation failed" := by
  refine ⟨by rfl, ⟨_, by rfl, rfl⟩, by rfl, ⟨_, by rfl, rfl⟩⟩

end Caporal
